import Mathlib

/-!
Token issuance and single-use verification of utk-auth-server.

A shallow embedding of `src/main.go`.  The three functions of the program
(`generateToken`, `generateUserTokenHandler`, `verifyHandler`) are translated
statement by statement.  The standard-library calls they make are modelled at
their interface:

* a Go string is a sequence of bytes (`GoString`); request values and the
  secret are arbitrary byte strings.  Text the program itself produces is
  written as a Lean string and enters a Go string through its UTF-8 encoding.
* `encoding/json` coerces strings to well-formed UTF-8, both when it encodes
  and when it decodes: every byte that does not start a well-formed sequence
  becomes U+FFFD (`coerceUTF8`, following `utf8.DecodeRune`).
* `tokens.json` is a `File`: absent, unreadable, or holding some content.  A
  content is a JSON object given by its members in text order, the value
  `null`, or anything on which `json.Unmarshal` returns an error.
  `json.Marshal` writes the members of a map sorted by key.
* `http.ResponseWriter` records the status fixed by the first `WriteHeader`
  (explicit or implied by the first write) and the sequence of body writes.
* `crypto/rand` and the outcome of `ioutil.WriteFile` are inputs (`Env`).  A
  `WriteFile` can fail when it opens the file, leaving it untouched, or after
  the open has truncated it, leaving a cut-off file that no longer parses.
* every external call on the file or the random source is appended to a log,
  so that "the file is not written" can be stated as such.

Requests are processed one at a time.
-/

namespace UtkAuth

/-! ## Go strings and UTF-8 -/

/-- A Go string: a sequence of bytes. -/
abbrev GoString := List (Fin 256)

/-- The byte with the given value. -/
def byte (n : Nat) : Fin 256 := ⟨n % 256, Nat.mod_lt _ (by decide)⟩

/-- The UTF-8 encoding of a character. -/
def utf8Encode (c : Char) : GoString :=
  let n := c.toNat
  if n < 0x80 then [byte n]
  else if n < 0x800 then [byte (0xC0 + n / 64), byte (0x80 + n % 64)]
  else if n < 0x10000 then
    [byte (0xE0 + n / 4096), byte (0x80 + n / 64 % 64), byte (0x80 + n % 64)]
  else
    [byte (0xF0 + n / 262144), byte (0x80 + n / 4096 % 64), byte (0x80 + n / 64 % 64),
      byte (0x80 + n % 64)]

/-- The Go string of a text: its UTF-8 encoding. -/
def str (s : String) : GoString := s.toList.flatMap utf8Encode

instance : Coe String GoString := ⟨str⟩

/-- Whether a byte is present and lies in the range `lo..hi`. -/
def inRange (lo hi : Nat) : Option (Fin 256) → Bool
  | some b => lo ≤ b.val && b.val ≤ hi
  | none => false

/-- The table of lead bytes of `unicode/utf8`: the length of the sequence a lead byte
starts and the accepted range of its second byte; `none` for a byte that starts nothing. -/
def leadClass (b0 : Nat) : Option (Nat × Nat × Nat) :=
  if 0xC2 ≤ b0 ∧ b0 ≤ 0xDF then some (2, 0x80, 0xBF)
  else if b0 = 0xE0 then some (3, 0xA0, 0xBF)
  else if 0xE1 ≤ b0 ∧ b0 ≤ 0xEC then some (3, 0x80, 0xBF)
  else if b0 = 0xED then some (3, 0x80, 0x9F)
  else if 0xEE ≤ b0 ∧ b0 ≤ 0xEF then some (3, 0x80, 0xBF)
  else if b0 = 0xF0 then some (4, 0x90, 0xBF)
  else if 0xF1 ≤ b0 ∧ b0 ≤ 0xF3 then some (4, 0x80, 0xBF)
  else if b0 = 0xF4 then some (4, 0x80, 0x8F)
  else none

/-- The size Go `utf8.DecodeRuneInString` reports for the well-formed sequence at the head
of `s`; 0 when `s` is empty or its first byte starts no well-formed sequence (Go then
returns `RuneError` with size 1). -/
def runeLen : GoString → Nat
  | [] => 0
  | b0 :: t =>
    if b0.val < 0x80 then 1
    else
      match leadClass b0.val with
      | none => 0
      | some (size, lo, hi) =>
        if inRange lo hi t[0]? && (decide (size ≤ 2) || inRange 0x80 0xBF t[1]?) &&
            (decide (size ≤ 3) || inRange 0x80 0xBF t[2]?) then size
        else 0

/-- The encoding of U+FFFD. -/
def replacementChar : GoString :=
  [⟨0xEF, by decide⟩, ⟨0xBF, by decide⟩, ⟨0xBD, by decide⟩]

/-- The coercion of `encoding/json`, with `k` bytes of a well-formed sequence still to
copy: a well-formed sequence is kept, any other byte becomes U+FFFD. -/
def coerceFrom : Nat → GoString → GoString
  | _, [] => []
  | k + 1, b :: t => b :: coerceFrom k t
  | 0, b :: t =>
    match runeLen (b :: t) with
    | 0 => replacementChar ++ coerceFrom 0 t
    | n + 1 => b :: coerceFrom n t

/-- The string `encoding/json` stores or reads for `s`. -/
def coerceUTF8 (s : GoString) : GoString := coerceFrom 0 s

/-- Go `utf8.ValidString`, with `k` bytes of a well-formed sequence still to skip. -/
def validFrom : Nat → GoString → Bool
  | _, [] => true
  | k + 1, _ :: t => validFrom k t
  | 0, b :: t =>
    match runeLen (b :: t) with
    | 0 => false
    | n + 1 => validFrom n t

/-- Go `utf8.ValidString`. -/
def utf8ValidString (s : GoString) : Bool := validFrom 0 s

/-- Go `strings.Compare(a, b) <= 0`: the bytewise lexicographic order. -/
def bytesLE : GoString → GoString → Bool
  | [], _ => true
  | _ :: _, [] => false
  | a :: s, b :: t => decide (a.val < b.val) || (decide (a = b) && bytesLE s t)

/-! ## Data model -/

/-- TokenData holds the token and guild ID (`main.go` line 24). -/
structure TokenData where
  Token : GoString
  GuildID : GoString
deriving DecidableEq, Repr

/-- The JSON body of a successful issuance (`main.go` line 29). -/
structure TokenResponse where
  Token : GoString
deriving DecidableEq, Repr

/-- An allocated Go `map[string]TokenData`, as the list of its entries; the operations
below keep at most one entry per key.  The same type lists the members of a JSON object
in text order. -/
abbrev TokenMap := List (GoString × TokenData)

/-- The map with no entries. -/
def TokenMap.empty : TokenMap := []

/-- Go `v, ok := m[k]` on an allocated map. -/
def TokenMap.get : TokenMap → GoString → Option TokenData
  | [], _ => none
  | (k', v) :: rest, k => if k' = k then some v else TokenMap.get rest k

/-- Go `delete(m, k)` on an allocated map. -/
def TokenMap.delete (m : TokenMap) (k : GoString) : TokenMap :=
  m.filter (fun e => decide (e.1 ≠ k))

/-- Go `m[k] = v` on an allocated map. -/
def TokenMap.set (m : TokenMap) (k : GoString) (v : TokenData) : TokenMap :=
  (k, v) :: TokenMap.delete m k

/-- A Go variable of type `map[string]TokenData`: the nil map or an allocated one. -/
inductive GoMap where
  | nil
  | alloc (m : TokenMap)
deriving DecidableEq, Repr

/-- Go `v, ok := tokens[k]`; reading the nil map finds nothing. -/
@[simp]
def GoMap.lookup : GoMap → GoString → Option TokenData
  | .nil, _ => none
  | .alloc m, k => m.get k

/-- Go `delete(tokens, k)`; a no-op on the nil map. -/
@[simp]
def GoMap.delete : GoMap → GoString → GoMap
  | .nil, _ => .nil
  | .alloc m, k => .alloc (m.delete k)

/-- What the bytes of `tokens.json` are to `json.Unmarshal(file, &tokens)` with
`tokens` a fresh (nil) `map[string]TokenData`:
* `object members`: a JSON object that decodes without error, with the given members
  (key and record, as written) in text order;
* `null`: the JSON value `null`, which decodes without error and leaves the map nil;
* `malformed left`: anything on which `Unmarshal` returns an error, leaving the
  variable as `left` (nil on a syntax error or a non-object value, the entries
  decoded so far on a type error inside an object). -/
inductive FileContent where
  | object (members : TokenMap)
  | null
  | malformed (left : GoMap)
deriving DecidableEq, Repr

/-- The state of `tokens.json` on disk. -/
inductive File where
  | absent
  | unreadable
  | content (c : FileContent)
deriving DecidableEq, Repr

/-- The error of a failed `ioutil.ReadFile`. -/
inductive ReadError where
  | notExist
  | other
deriving DecidableEq, Repr

/-- Go `os.IsNotExist(err)`. -/
@[simp]
def osIsNotExist : ReadError → Bool
  | .notExist => true
  | .other => false

/-- The error of a failed `ioutil.WriteFile`, which opens the file with `O_TRUNC` and
then writes: the open failed, or a later step failed after the file was truncated. -/
inductive WriteError where
  | atOpen
  | afterOpen
deriving DecidableEq, Repr

/-- External calls made by a handler, in order. -/
inductive Event where
  | readFile
  | writeFile (data : FileContent)
  | randRead
deriving DecidableEq, Repr

/-- The file and the log of external calls. -/
structure World where
  disk : File
  log : List Event
deriving DecidableEq, Repr

/-- A record as `encoding/json` stores or reads it. -/
def coerceData (v : TokenData) : TokenData :=
  ⟨coerceUTF8 v.Token, coerceUTF8 v.GuildID⟩

/-- The map `json.Unmarshal` builds from the members of a JSON object: strings are
coerced to well-formed UTF-8 and a later member replaces an earlier one with the same
key. -/
def decodeMembers (members : TokenMap) : TokenMap :=
  members.foldl (fun m e => m.set (coerceUTF8 e.1) (coerceData e.2)) TokenMap.empty

/-- The members `json.Marshal` writes for a map: sorted by key, strings coerced to
well-formed UTF-8. -/
def marshalMembers (m : TokenMap) : TokenMap :=
  (m.insertionSort (fun a b => bytesLE a.1 b.1 = true)).map
    (fun e => (coerceUTF8 e.1, coerceData e.2))

/-- The map decoded from a store state: the decoded object, and the empty map for an
absent, unreadable, null or malformed file. -/
def File.decoded : File → TokenMap
  | .content (.object members) => decodeMembers members
  | _ => TokenMap.empty

/-- The record a store state holds for a user. -/
def File.records (f : File) (k : GoString) : Option TokenData :=
  f.decoded.get k

/-- The inputs of a request that come from outside the program. -/
structure Env where
  /-- The value of `os.Getenv("SHARED_SECRET")`, empty when unset. -/
  SHARED_SECRET : GoString
  /-- The random source: an error, or the stream of bytes it delivers. -/
  rand : Except String (Nat → Nat)
  /-- The error of `ioutil.WriteFile`, `none` when the write succeeds. -/
  writeErr : Option WriteError

/-- What a handler reads of `*http.Request`: `r.Header.Get` and
`r.URL.Query().Get`, both empty for a missing key. -/
structure Request where
  header : String → GoString
  query : String → GoString

/-- One write to the response body. -/
inductive Chunk where
  | line (s : String)
  | json (v : TokenResponse)
deriving DecidableEq, Repr

/-- The state of an `http.ResponseWriter`. -/
structure ResponseWriter where
  /-- The status line, `none` until the header is written. -/
  status : Option Nat
  /-- The header map of `w.Header()`. -/
  header : List (String × String)
  /-- The body written so far. -/
  body : List Chunk
deriving DecidableEq, Repr

/-- The writer a handler is started with. -/
def ResponseWriter.fresh : ResponseWriter := ⟨none, [], []⟩

/-- Go `w.Header().Set(k, v)`. -/
def ResponseWriter.headerSet (w : ResponseWriter) (k v : String) : ResponseWriter :=
  { w with header := (k, v) :: w.header.filter (fun p => p.1 != k) }

/-- Go `w.Header().Del(k)`. -/
def ResponseWriter.headerDel (w : ResponseWriter) (k : String) : ResponseWriter :=
  { w with header := w.header.filter (fun p => p.1 != k) }

/-- Go `w.WriteHeader(code)`: only the first call fixes the status. -/
def ResponseWriter.writeHeader (w : ResponseWriter) (code : Nat) : ResponseWriter :=
  match w.status with
  | some _ => w
  | none => { w with status := some code }

/-- Go `w.Write`: implies `WriteHeader(200)` when no header was written. -/
def ResponseWriter.write (w : ResponseWriter) (c : Chunk) : ResponseWriter :=
  let w := w.writeHeader 200
  { w with body := w.body ++ [c] }

/-- Go `fmt.Fprintln(w, s)`. -/
def fprintln (w : ResponseWriter) (s : String) : ResponseWriter :=
  w.write (.line s)

/-- Go `http.Error(w, msg, code)`. -/
def httpError (w : ResponseWriter) (msg : String) (code : Nat) : ResponseWriter :=
  let w := w.headerDel "Content-Length"
  let w := w.headerSet "Content-Type" "text/plain; charset=utf-8"
  let w := w.headerSet "X-Content-Type-Options" "nosniff"
  let w := w.writeHeader code
  fprintln w msg

/-- Go `json.NewEncoder(w).Encode(response)`. -/
def jsonEncode (w : ResponseWriter) (v : TokenResponse) : ResponseWriter :=
  w.write (.json v)

/-- Go `ioutil.ReadFile("tokens.json")`. -/
@[simp]
def ioutilReadFile (s : World) : Except ReadError FileContent × World :=
  let s' : World := { s with log := s.log ++ [.readFile] }
  match s.disk with
  | .absent => (.error .notExist, s')
  | .unreadable => (.error .other, s')
  | .content c => (.ok c, s')

/-- The content of a file cut off by a failed write: empty or a proper beginning of a
JSON object, on which `json.Unmarshal` reports a syntax error and leaves the map nil. -/
def truncated : FileContent := .malformed .nil

/-- Go `ioutil.WriteFile("tokens.json", data, 0644)`: open with `O_TRUNC`, write, close. -/
@[simp]
def ioutilWriteFile (env : Env) (s : World) (data : FileContent) :
    Option WriteError × World :=
  match env.writeErr with
  | some .atOpen => (some .atOpen, { s with log := s.log ++ [.writeFile data] })
  | some .afterOpen =>
    (some .afterOpen, { disk := .content truncated, log := s.log ++ [.writeFile data] })
  | none => (none, { disk := .content data, log := s.log ++ [.writeFile data] })

/-- Go `json.Unmarshal(file, &tokens)` for a fresh `var tokens map[string]TokenData`:
the value of `tokens` afterwards and the error. -/
@[simp]
def jsonUnmarshal : FileContent → GoMap × Option String
  | .object members => (.alloc (decodeMembers members), none)
  | .null => (.nil, none)
  | .malformed left => (left, some "json: cannot unmarshal")

/-- Go `json.Marshal(tokens)`: the nil map encodes as `null`, an allocated map
as a JSON object; a map of strings never fails to encode. -/
@[simp]
def jsonMarshal : GoMap → FileContent × Option String
  | .nil => (.null, none)
  | .alloc m => (.object (marshalMembers m), none)

/-- The bytes `[]byte("{}")`. -/
@[simp]
def emptyObject : FileContent := .object TokenMap.empty

/-! ## Token generation -/

/-- The digits of `encoding/hex`. -/
def hextable : List Char := "0123456789abcdef".toList

/-- The digit `hextable[n]`. -/
def hexDigit (n : Nat) : Char := hextable.getD n '0'

/-- Go `hex.EncodeToString`: two digits per byte, high nibble first. -/
def hexEncodeToString (bytes : List Nat) : String :=
  String.mk (bytes.flatMap (fun v => [hexDigit (v / 16), hexDigit (v % 16)]))

/-- Go `rand.Read(bytes)` on a slice of length `n`: an error, or `n` bytes. -/
def randRead (src : Except String (Nat → Nat)) (n : Nat) : Except String (List Nat) :=
  match src with
  | .error e => .error e
  | .ok stream => .ok ((List.range n).map (fun i => stream i % 256))

/-- Go `s[:n]` on a string of one-byte characters. -/
def sliceTo (s : String) (n : Nat) : String := String.mk (s.toList.take n)

/-- Generate a random token of 25 characters (`main.go` line 34). -/
def generateToken (src : Except String (Nat → Nat)) : String × Option String :=
  match randRead src 25 with
  | .error err => ("", some err)
  | .ok bytes => (sliceTo (hexEncodeToString bytes) 25, none)

/-! ## Handlers -/

/-- How a handler ends: it returns, or it panics on an assignment into the nil map. -/
inductive Outcome where
  | returned (w : ResponseWriter) (s : World)
  | panicked (w : ResponseWriter) (s : World)
deriving DecidableEq, Repr

/-- The response writer at the end. -/
@[simp]
def Outcome.w : Outcome → ResponseWriter
  | .returned w _ => w
  | .panicked w _ => w

/-- The file and log at the end. -/
@[simp]
def Outcome.world : Outcome → World
  | .returned _ s => s
  | .panicked _ s => s

/-- Whether the handler ran to its end. -/
@[simp]
def Outcome.completed : Outcome → Bool
  | .returned _ _ => true
  | .panicked _ _ => false

/-- Handler for generating user token (`main.go` line 43). -/
def generateUserTokenHandler (env : Env) (w : ResponseWriter) (r : Request) (s : World) :
    Outcome :=
  let sharedSecret := env.SHARED_SECRET
  let authHeader := r.header "X-Custom-Auth"
  if authHeader ≠ sharedSecret then
    .returned (httpError w "Unauthorized" 401) s
  else
    let userDiscordID := r.query "user-discord-id"
    let guildDiscordID := r.query "guild-discord-id"
    if userDiscordID = "" ∨ guildDiscordID = "" then
      .returned (httpError w "Missing parameters" 400) s
    else
      -- check if id already exists (lines 61-79): the writer, and whether the block returned
      let (rd, s) := ioutilReadFile s
      let blk : ResponseWriter × Bool :=
        match rd with
        | .error err =>
          if !osIsNotExist err then (httpError w "tokens.json does not exist" 500, false)
          else (w, false)
        | .ok file =>
          let (tokens, err) := jsonUnmarshal file
          let w := if err.isSome then httpError w "Error parsing file" 500 else w
          if (tokens.lookup userDiscordID).isSome then
            (httpError w "User already has a token" 409, true)
          else (w, false)
      if blk.2 then .returned blk.1 s
      else
        let w := blk.1
        let s : World := { s with log := s.log ++ [.randRead] }
        match generateToken env.rand with
        | (_, some _) => .returned (httpError w "Error generating token" 500) s
        | (token, none) =>
          -- Read the existing tokens
          let (rd, s) := ioutilReadFile s
          let file : Option FileContent :=
            match rd with
            | .error err => if !osIsNotExist err then none else some emptyObject
            | .ok file => some file
          match file with
          | none => .returned (httpError w "Error reading file" 500) s
          | some file =>
            match jsonUnmarshal file with
            | (_, some _) => .returned (httpError w "Error parsing file" 500) s
            | (tokens, none) =>
              -- Add or update the token for the user
              match tokens with
              | .nil => .panicked w s
              | .alloc m =>
                let tokens := GoMap.alloc (m.set userDiscordID ⟨str token, guildDiscordID⟩)
                -- Write the updated tokens back to the file
                match jsonMarshal tokens with
                | (_, some _) => .returned (httpError w "Error marshalling JSON" 500) s
                | (updatedData, none) =>
                  match ioutilWriteFile env s updatedData with
                  | (some _, s) => .returned (httpError w "Error writing to file" 500) s
                  | (none, s) =>
                    let w := fprintln w "Token generated successfully"
                    let response : TokenResponse := ⟨str token⟩
                    let w := w.headerSet "Content-Type" "application/json"
                    .returned (jsonEncode w response) s

/-- Handler for verifying user token (`main.go` line 128). -/
def verifyHandler (env : Env) (w : ResponseWriter) (r : Request) (s : World) : Outcome :=
  let userDiscordID := r.query "user-discord-id"
  let token := r.query "token"
  if userDiscordID = "" ∨ token = "" then
    .returned (httpError w "Missing parameters" 400) s
  else
    match ioutilReadFile s with
    | (.error _, s) => .returned (httpError w "Error reading file" 500) s
    | (.ok file, s) =>
      match jsonUnmarshal file with
      | (_, some _) => .returned (httpError w "Error parsing file" 500) s
      | (tokens, none) =>
        match tokens.lookup userDiscordID with
        | some tokenData =>
          if tokenData.Token = token then
            let w := fprintln w "Verification successful"
            -- remove key from map
            let tokens := tokens.delete userDiscordID
            -- Write the updated tokens back to the file
            let (updatedData, err) := jsonMarshal tokens
            let w := if err.isSome then httpError w "Error marshalling JSON" 500 else w
            let (err, s) := ioutilWriteFile env s updatedData
            let w := if err.isSome then httpError w "Error writing to file" 500 else w
            .returned w s
          else
            .returned (httpError w "Invalid token" 401) s
        | none => .returned (httpError w "User not found" 404) s

/-- The two routes registered in `main` (`main.go` lines 174-175). -/
inductive Route where
  | generateUserToken
  | verify
deriving DecidableEq, Repr

/-- One request served from a fresh writer on the given store. -/
def serve (env : Env) (route : Route) (r : Request) (disk : File) : Outcome :=
  match route with
  | .generateUserToken => generateUserTokenHandler env ResponseWriter.fresh r ⟨disk, []⟩
  | .verify => verifyHandler env ResponseWriter.fresh r ⟨disk, []⟩

/-- A request built from its four inputs. -/
def mkRequest (auth user guild token : GoString) : Request where
  header := fun k => if k = "X-Custom-Auth" then auth else ""
  query := fun k =>
    if k = "user-discord-id" then user
    else if k = "guild-discord-id" then guild
    else if k = "token" then token
    else ""

/-- Whether a body carries a token. -/
def carriesToken (body : List Chunk) : Bool :=
  body.any (fun c => match c with | .json _ => true | .line _ => false)

/-- Whether a log contains a write of the file. -/
def wroteFile (log : List Event) : Bool :=
  log.any (fun e => match e with | .writeFile _ => true | _ => false)

/-- Whether a log contains a read of the file. -/
def readFile (log : List Event) : Bool :=
  log.any (fun e => match e with | .readFile => true | _ => false)

/-- Whether a log contains a draw from the random source. -/
def drewRandom (log : List Event) : Bool :=
  log.any (fun e => match e with | .randRead => true | _ => false)

/-- A lowercase hexadecimal digit. -/
def isLowerHex (c : Char) : Bool :=
  ('0' ≤ c && c ≤ '9') || ('a' ≤ c && c ≤ 'f')

/-- The 25 characters of a token, in terms of the bytes `stream i % 256`:
two digits for each of the first twelve bytes, then the high digit of the
thirteenth. -/
def tokenChars (stream : Nat → Nat) : List Char :=
  (List.range 12).flatMap
      (fun i => [hexDigit (stream i % 256 / 16), hexDigit (stream i % 256 % 16)])
    ++ [hexDigit (stream 12 % 256 / 16)]

/-- A map as `json.Unmarshal` builds it: one entry per key, every string well-formed
UTF-8. -/
def TokenMap.WellFormed (m : TokenMap) : Prop :=
  (m.map Prod.fst).Nodup ∧
  ∀ e ∈ m, utf8ValidString e.1 = true ∧ utf8ValidString e.2.Token = true ∧
    utf8ValidString e.2.GuildID = true


/-! ## UTF-8 coercion -/

/-- A well-formed string is left as it is. -/
theorem coerceFrom_of_valid (s : GoString) :
    ∀ k, validFrom k s = true → coerceFrom k s = s := by
  induction s with
  | nil => intro k _; cases k <;> rfl
  | cons b t ih =>
    intro k h
    cases k with
    | succ k =>
      simp only [validFrom] at h
      simp only [coerceFrom, ih k h]
    | zero =>
      simp only [validFrom] at h
      simp only [coerceFrom]
      split at h
      · cases h
      · rename_i n hn
        simp only [ih n h]

/-- Copying `n` bytes leaves the first `n` bytes as they are. -/
theorem getElem?_coerceFrom (t : GoString) :
    ∀ (n i : Nat), i < n → (coerceFrom n t)[i]? = t[i]? := by
  induction t with
  | nil => intro n i _; cases n <;> rfl
  | cons x t ih =>
    intro n i hi
    cases n with
    | zero => omega
    | succ n =>
      cases i with
      | zero => simp [coerceFrom]
      | succ i =>
        simp only [coerceFrom, List.getElem?_cons_succ]
        exact ih n i (by omega)

/-- A lead byte starts a sequence of two to four bytes. -/
theorem leadClass_size (b sz lo hi : Nat) (h : leadClass b = some (sz, lo, hi)) :
    2 ≤ sz ∧ sz ≤ 4 := by
  unfold leadClass at h
  split_ifs at h <;> simp at h <;> omega

/-- The size of a well-formed sequence depends only on its own bytes. -/
theorem runeLen_agree (b : Fin 256) (t u : GoString) (n : Nat)
    (h : runeLen (b :: t) = n + 1) (ha : ∀ i, i < n → u[i]? = t[i]?) :
    runeLen (b :: u) = n + 1 := by
  simp only [runeLen] at h ⊢
  by_cases hb : b.val < 0x80
  · simpa [hb] using h
  · simp only [hb, if_false] at h ⊢
    rcases hc : leadClass b.val with _ | ⟨sz, lo, hi⟩
    · simp [hc] at h
    · have hsz := leadClass_size _ _ _ _ hc
      simp only [hc] at h ⊢
      split_ifs at h with hcond
      · subst h
        have h0 := ha 0 (by omega)
        have h1 : n + 1 ≤ 2 ∨ u[1]? = t[1]? := by
          by_cases h2 : n + 1 ≤ 2
          · exact Or.inl h2
          · exact Or.inr (ha 1 (by omega))
        have h2 : n + 1 ≤ 3 ∨ u[2]? = t[2]? := by
          by_cases h3 : n + 1 ≤ 3
          · exact Or.inl h3
          · exact Or.inr (ha 2 (by omega))
        rw [h0]
        rcases h1 with h1 | h1 <;> rcases h2 with h2 | h2 <;>
          simp_all

/-- What the coercion yields is well-formed. -/
theorem validFrom_coerceFrom (s : GoString) : ∀ k, validFrom k (coerceFrom k s) = true := by
  induction s with
  | nil => intro k; cases k <;> rfl
  | cons b t ih =>
    intro k
    cases k with
    | succ k => simpa only [coerceFrom, validFrom] using ih k
    | zero =>
      simp only [coerceFrom]
      split
      · have e1 : ((239 : Fin 256) : Nat) = 239 := rfl
        have e2 : ((191 : Fin 256) : Nat) = 191 := rfl
        have e3 : ((189 : Fin 256) : Nat) = 189 := rfl
        have h3 : runeLen (replacementChar ++ coerceFrom 0 t) = 3 := by
          simp [runeLen, leadClass, inRange, replacementChar, e1, e2, e3]
        have h4 : replacementChar ++ coerceFrom 0 t =
            ⟨0xEF, by decide⟩ :: ⟨0xBF, by decide⟩ :: ⟨0xBD, by decide⟩ :: coerceFrom 0 t := rfl
        rw [h4] at h3 ⊢
        simp only [validFrom, h3]
        exact ih 0
      · rename_i n hn
        have h := runeLen_agree b t (coerceFrom n t) n hn
          (fun i hi => getElem?_coerceFrom t n i hi)
        simp only [validFrom, h]
        exact ih n

/-- A well-formed string is stored as it is. -/
theorem coerceUTF8_of_valid (s : GoString) (h : utf8ValidString s = true) :
    coerceUTF8 s = s :=
  coerceFrom_of_valid s 0 h

/-- A stored string is well-formed. -/
theorem valid_coerceUTF8 (s : GoString) : utf8ValidString (coerceUTF8 s) = true :=
  validFrom_coerceFrom s 0

/-- The empty text is the empty Go string. -/
theorem str_empty : str "" = [] := rfl

/-- A string of bytes below 0x80 is well-formed. -/
theorem valid_of_ascii (s : GoString) (h : ∀ b ∈ s, b.val < 0x80) :
    utf8ValidString s = true := by
  unfold utf8ValidString
  induction s with
  | nil => rfl
  | cons b t ih =>
    have hb : b.val < 0x80 := h b (List.mem_cons_self _ _)
    have hr : runeLen (b :: t) = 1 := by simp [runeLen, hb]
    simp only [validFrom, hr]
    exact ih (fun c hc => h c (List.mem_cons_of_mem _ hc))

/-- The text of ASCII characters is well-formed. -/
theorem valid_str_of_ascii (cs : List Char) (h : ∀ c ∈ cs, c.toNat < 0x80) :
    utf8ValidString (str (String.mk cs)) = true := by
  apply valid_of_ascii
  intro b hb
  simp only [str, List.mem_flatMap] at hb
  obtain ⟨c, hc, hbc⟩ := hb
  have hc2 := h c hc
  simp only [utf8Encode, hc2, if_true, List.mem_singleton] at hbc
  subst hbc
  simp only [byte]
  omega

/-! ## Maps -/

/-- Reading after a delete. -/
theorem get_delete (m : TokenMap) (k k' : GoString) :
    (TokenMap.delete m k).get k' = if k' = k then none else m.get k' := by
  induction m with
  | nil => simp [TokenMap.delete, TokenMap.get]
  | cons e m ih =>
    obtain ⟨a, v⟩ := e
    simp only [TokenMap.delete] at ih ⊢
    by_cases ha : a = k
    · subst ha
      simp only [List.filter, ne_eq, not_true_eq_false, decide_False, ih, TokenMap.get]
      by_cases hk : k' = a
      · simp [hk]
      · have hk2 : ¬ a = k' := fun h => hk h.symm
        simp [hk, hk2]
    · simp only [List.filter, ne_eq, ha, not_false_eq_true, decide_True, TokenMap.get, ih]
      by_cases hk : k' = k
      · subst hk
        simp [ha]
      · simp [hk]

/-- Reading after an assignment. -/
theorem get_set (m : TokenMap) (k k' : GoString) (v : TokenData) :
    (TokenMap.set m k v).get k' = if k' = k then some v else m.get k' := by
  simp only [TokenMap.set, TokenMap.get, get_delete]
  by_cases hk : k' = k
  · simp [hk]
  · have hk2 : ¬ k = k' := fun h => hk h.symm
    simp [hk, hk2]


/-- The keys left by a delete are among the keys before, in the same order. -/
theorem keys_delete_sublist (m : TokenMap) (k : GoString) :
    ((TokenMap.delete m k).map Prod.fst).Sublist (m.map Prod.fst) :=
  (List.filter_sublist m).map Prod.fst

/-- The deleted key is gone. -/
theorem not_mem_keys_delete (m : TokenMap) (k : GoString) :
    k ∉ (TokenMap.delete m k).map Prod.fst := by
  intro h
  simp only [TokenMap.delete, List.mem_map, List.mem_filter] at h
  obtain ⟨e, ⟨_, he⟩, hk⟩ := h
  simp [hk] at he

/-- A delete keeps a map well-formed. -/
theorem wellFormed_delete (m : TokenMap) (k : GoString) (h : m.WellFormed) :
    (TokenMap.delete m k).WellFormed := by
  refine ⟨h.1.sublist (keys_delete_sublist m k), fun e he => ?_⟩
  exact h.2 e (List.mem_of_mem_filter he)

/-- An assignment of well-formed strings keeps a map well-formed. -/
theorem wellFormed_set (m : TokenMap) (k : GoString) (v : TokenData) (h : m.WellFormed)
    (hk : utf8ValidString k = true) (ht : utf8ValidString v.Token = true)
    (hg : utf8ValidString v.GuildID = true) : (TokenMap.set m k v).WellFormed := by
  have hd := wellFormed_delete m k h
  refine ⟨?_, fun e he => ?_⟩
  · simp only [TokenMap.set, List.map_cons, List.nodup_cons]
    exact ⟨not_mem_keys_delete m k, hd.1⟩
  · simp only [TokenMap.set, List.mem_cons] at he
    rcases he with rfl | he
    · exact ⟨hk, ht, hg⟩
    · exact hd.2 e he

/-- Decoding one more member is an assignment. -/
theorem decodeMembers_append (es : TokenMap) (e : GoString × TokenData) :
    decodeMembers (es ++ [e]) =
      TokenMap.set (decodeMembers es) (coerceUTF8 e.1) (coerceData e.2) := by
  simp [decodeMembers, List.foldl_append]

/-- A decoded map is well-formed. -/
theorem wellFormed_decodeMembers (es : TokenMap) : (decodeMembers es).WellFormed := by
  induction es using List.reverseRecOn with
  | nil => exact ⟨List.nodup_nil, fun e he => by cases he⟩
  | append_singleton es e ih =>
    rw [decodeMembers_append]
    exact wellFormed_set _ _ _ ih (valid_coerceUTF8 _) (valid_coerceUTF8 _) (valid_coerceUTF8 _)

/-- In a map with one entry per key, reading finds exactly the entries. -/
theorem get_eq_some_iff (m : TokenMap) (h : (m.map Prod.fst).Nodup) (k : GoString)
    (v : TokenData) : m.get k = some v ↔ (k, v) ∈ m := by
  induction m with
  | nil => simp [TokenMap.get]
  | cons e m ih =>
    obtain ⟨a, x⟩ := e
    simp only [List.map_cons, List.nodup_cons] at h
    simp only [TokenMap.get, List.mem_cons, Prod.mk.injEq]
    by_cases ha : a = k
    · subst ha
      simp only [if_true, Option.some.injEq]
      constructor
      · intro hx
        exact Or.inl ⟨trivial, hx.symm⟩
      · rintro (⟨_, hx⟩ | hm)
        · exact hx.symm
        · exact absurd (List.mem_map_of_mem Prod.fst hm) h.1
    · have ha2 : ¬ k = a := fun hh => ha hh.symm
      simp only [ha, if_false, ih h.2, ha2, false_and, false_or]

/-- A record is stored as it is when its strings are well-formed. -/
theorem coerceData_of_valid (v : TokenData) (ht : utf8ValidString v.Token = true)
    (hg : utf8ValidString v.GuildID = true) : coerceData v = v := by
  cases v
  simp only [coerceData] at *
  rw [coerceUTF8_of_valid _ ht, coerceUTF8_of_valid _ hg]

/-- Decoding well-formed members with distinct keys finds exactly the members. -/
theorem get_decodeMembers_iff (es : TokenMap) (h : TokenMap.WellFormed es) (k : GoString)
    (v : TokenData) : (decodeMembers es).get k = some v ↔ (k, v) ∈ es := by
  induction es using List.reverseRecOn with
  | nil => simp [decodeMembers, TokenMap.get, TokenMap.empty]
  | append_singleton es e ih =>
    obtain ⟨a, x⟩ := e
    have hv := h.2 (a, x) (by simp)
    have hnd : (es.map Prod.fst).Nodup ∧ a ∉ es.map Prod.fst := by
      have := h.1
      simp only [List.map_append, List.map_cons, List.map_nil] at this
      rw [List.nodup_append] at this
      refine ⟨this.1, fun hm => ?_⟩
      exact this.2.2 hm (by simp)
    have hes : TokenMap.WellFormed es :=
      ⟨hnd.1, fun e he => h.2 e (List.mem_append_left _ he)⟩
    rw [decodeMembers_append, get_set]
    simp only [coerceUTF8_of_valid a hv.1, coerceData_of_valid x hv.2.1 hv.2.2,
      List.mem_append, List.mem_singleton, Prod.mk.injEq]
    by_cases hk : k = a
    · subst hk
      simp only [if_true, Option.some.injEq, true_and]
      constructor
      · intro hx
        exact Or.inr hx.symm
      · rintro (hm | hx)
        · exact absurd (List.mem_map_of_mem Prod.fst hm) hnd.2
        · exact hx.symm
    · simp only [hk, if_false, ih hes, false_and, or_false]

/-- Sorting permutes the entries. -/
theorem sort_perm (m : TokenMap) :
    (m.insertionSort (fun a b => bytesLE a.1 b.1 = true)).Perm m :=
  List.perm_insertionSort _ m

/-- Sorting keeps a map well-formed. -/
theorem wellFormed_sort (m : TokenMap) (h : m.WellFormed) :
    TokenMap.WellFormed (m.insertionSort (fun a b => bytesLE a.1 b.1 = true)) := by
  refine ⟨?_, fun e he => h.2 e ((sort_perm m).mem_iff.1 he)⟩
  exact ((sort_perm m).map Prod.fst).nodup_iff.2 h.1

/-- A well-formed map is written as its sorted entries. -/
theorem marshalMembers_of_wellFormed (m : TokenMap) (h : m.WellFormed) :
    marshalMembers m = m.insertionSort (fun a b => bytesLE a.1 b.1 = true) := by
  unfold marshalMembers
  have hs := wellFormed_sort m h
  conv_rhs => rw [← List.map_id (List.insertionSort _ m)]
  apply List.map_congr_left
  intro e he
  have hv := hs.2 e he
  obtain ⟨a, x⟩ := e
  simp only [id, coerceUTF8_of_valid a hv.1, coerceData_of_valid x hv.2.1 hv.2.2]

/-- The members written for a well-formed map have distinct keys. -/
theorem nodup_keys_marshalMembers (m : TokenMap) (h : m.WellFormed) :
    ((marshalMembers m).map Prod.fst).Nodup := by
  rw [marshalMembers_of_wellFormed m h]
  exact (wellFormed_sort m h).1

/-- Writing a well-formed map and reading it back gives the same records. -/
theorem get_decode_marshal (m : TokenMap) (h : m.WellFormed) (k : GoString) :
    (decodeMembers (marshalMembers m)).get k = m.get k := by
  rw [marshalMembers_of_wellFormed m h]
  apply Option.ext
  intro v
  simp only [Option.mem_def]
  rw [get_decodeMembers_iff _ (wellFormed_sort m h), get_eq_some_iff m h.1,
    (sort_perm m).mem_iff]

/-- The records of a file holding what was written for a well-formed map. -/
theorem records_marshal (m : TokenMap) (h : m.WellFormed) (k : GoString) :
    (File.content (.object (marshalMembers m))).records k = m.get k :=
  get_decode_marshal m h k

/-- The records of a file holding a JSON object. -/
theorem records_object (members : TokenMap) (k : GoString) :
    (File.content (.object members)).records k = (decodeMembers members).get k := rfl

/-- The map decoded from a file holding a JSON object. -/
@[simp]
theorem decoded_object (members : TokenMap) :
    (File.content (.object members)).decoded = decodeMembers members := rfl

/-- The map decoded from an absent file. -/
@[simp]
theorem decoded_absent : File.absent.decoded = TokenMap.empty := rfl

/-- The empty map is well-formed. -/
theorem wellFormed_empty : TokenMap.WellFormed TokenMap.empty :=
  ⟨List.nodup_nil, fun e he => by cases he⟩

/-- The empty object decodes to the empty map. -/
@[simp]
theorem decodeMembers_empty : decodeMembers TokenMap.empty = TokenMap.empty := rfl

/-- The empty map has no entry. -/
@[simp]
theorem get_empty (k : GoString) : TokenMap.empty.get k = none := rfl


/-- The map decoded from a store state is well-formed. -/
theorem wellFormed_decoded (f : File) : f.decoded.WellFormed := by
  unfold File.decoded
  split
  · exact wellFormed_decodeMembers _
  · exact wellFormed_empty

/-- Reading is not affected by a change of the records alone. -/
theorem get_map_values (m : TokenMap) (f : TokenData → TokenData) (k : GoString) :
    TokenMap.get (m.map (fun e => (e.1, f e.2))) k = (m.get k).map f := by
  induction m with
  | nil => rfl
  | cons e m ih =>
    obtain ⟨a, x⟩ := e
    simp only [List.map_cons, TokenMap.get]
    by_cases ha : a = k
    · simp [ha]
    · simp [ha, ih]

/-- Reading a list of entries extended at its end. -/
theorem get_append_singleton (m : TokenMap) (a k : GoString) (x : TokenData) :
    TokenMap.get (m ++ [(a, x)]) k =
      match m.get k with
      | some v => some v
      | none => if a = k then some x else none := by
  induction m with
  | nil => simp [TokenMap.get]
  | cons e m ih =>
    obtain ⟨b, y⟩ := e
    simp only [List.cons_append, TokenMap.get]
    by_cases hb : b = k
    · simp [hb]
    · simp [hb, ih]

/-- A key that is not in the list is not found. -/
theorem get_eq_none_of_not_mem (m : TokenMap) (k : GoString) (h : k ∉ m.map Prod.fst) :
    m.get k = none := by
  induction m with
  | nil => rfl
  | cons e m ih =>
    obtain ⟨a, x⟩ := e
    simp only [List.map_cons, List.mem_cons, not_or] at h
    have ha : ¬ a = k := fun hh => h.1 hh.symm
    simp only [TokenMap.get, ha, if_false]
    exact ih h.2

/-- Reading does not depend on the order of entries with distinct keys. -/
theorem get_perm (l1 l2 : TokenMap) (h : (l1.map Prod.fst).Nodup) (p : l1.Perm l2)
    (k : GoString) : l1.get k = l2.get k := by
  have h2 : (l2.map Prod.fst).Nodup := (p.map Prod.fst).nodup_iff.1 h
  apply Option.ext
  intro v
  simp only [Option.mem_def]
  rw [get_eq_some_iff l1 h, get_eq_some_iff l2 h2, p.mem_iff]

/-- Decoding members with distinct well-formed keys finds the coerced records. -/
theorem get_decodeMembers (es : TokenMap) (hnd : (es.map Prod.fst).Nodup)
    (hk : ∀ e ∈ es, utf8ValidString e.1 = true) (k : GoString) :
    (decodeMembers es).get k = (es.get k).map coerceData := by
  induction es using List.reverseRecOn with
  | nil => rfl
  | append_singleton es e ih =>
    obtain ⟨a, x⟩ := e
    have hva := hk (a, x) (by simp)
    simp only [List.map_append, List.map_cons, List.map_nil] at hnd
    rw [List.nodup_append] at hnd
    have hna : a ∉ es.map Prod.fst := fun hm => hnd.2.2 hm (by simp)
    have ih2 := ih hnd.1 (fun e he => hk e (List.mem_append_left _ he))
    rw [decodeMembers_append, get_set, get_append_singleton, ih2]
    simp only [coerceUTF8_of_valid a hva]
    by_cases hka : k = a
    · subst hka
      simp [get_eq_none_of_not_mem es k hna]
    · have hak : ¬ a = k := fun hh => hka hh.symm
      simp only [hka, if_false, hak]
      cases TokenMap.get es k <;> rfl

/-- A stored record is stored again as it is. -/
theorem coerceData_idem (v : TokenData) : coerceData (coerceData v) = coerceData v :=
  coerceData_of_valid _ (valid_coerceUTF8 _) (valid_coerceUTF8 _)

/-- Writing a map with distinct well-formed keys and reading it back gives the coerced
records. -/
theorem get_decode_marshal_keys (m : TokenMap) (hnd : (m.map Prod.fst).Nodup)
    (hk : ∀ e ∈ m, utf8ValidString e.1 = true) (k : GoString) :
    (decodeMembers (marshalMembers m)).get k = (m.get k).map coerceData := by
  have hp := sort_perm m
  have hmar : marshalMembers m =
      (m.insertionSort (fun a b => bytesLE a.1 b.1 = true)).map
        (fun e => (e.1, coerceData e.2)) := by
    unfold marshalMembers
    apply List.map_congr_left
    intro e he
    rw [coerceUTF8_of_valid e.1 (hk e (hp.mem_iff.1 he))]
  have hkeys : (marshalMembers m).map Prod.fst =
      (m.insertionSort (fun a b => bytesLE a.1 b.1 = true)).map Prod.fst := by
    rw [hmar, List.map_map]
    rfl
  have hnd2 : ((m.insertionSort (fun a b => bytesLE a.1 b.1 = true)).map Prod.fst).Nodup :=
    (hp.map Prod.fst).nodup_iff.2 hnd
  rw [get_decodeMembers (marshalMembers m) (by rw [hkeys]; exact hnd2)]
  · rw [hmar, get_map_values, Option.map_map]
    have hc : coerceData ∘ coerceData = coerceData := funext coerceData_idem
    rw [hc, get_perm _ _ hnd2 hp]
  · intro e he
    rw [hmar] at he
    simp only [List.mem_map] at he
    obtain ⟨e0, he0, rfl⟩ := he
    exact hk e0 (hp.mem_iff.1 he0)

/-- The members written for a map with distinct well-formed keys have distinct keys. -/
theorem nodup_keys_marshalMembers_keys (m : TokenMap) (hnd : (m.map Prod.fst).Nodup)
    (hk : ∀ e ∈ m, utf8ValidString e.1 = true) :
    ((marshalMembers m).map Prod.fst).Nodup := by
  have hp := sort_perm m
  have hkeys : (marshalMembers m).map Prod.fst =
      (m.insertionSort (fun a b => bytesLE a.1 b.1 = true)).map Prod.fst := by
    unfold marshalMembers
    rw [List.map_map]
    apply List.map_congr_left
    intro e he
    exact coerceUTF8_of_valid e.1 (hk e (hp.mem_iff.1 he))
  rw [hkeys]
  exact (hp.map Prod.fst).nodup_iff.2 hnd

/-- A record read from a well-formed map is stored as it is. -/
theorem coerceData_get (m : TokenMap) (h : m.WellFormed) (k : GoString) :
    (m.get k).map coerceData = m.get k := by
  cases hg : m.get k with
  | none => rfl
  | some v =>
    have hm := (get_eq_some_iff m h.1 k v).1 hg
    have hv := h.2 (k, v) hm
    simp [coerceData_of_valid v hv.2.1 hv.2.2]

/-- A key that is read from a well-formed map is well-formed. -/
theorem valid_of_get (m : TokenMap) (h : m.WellFormed) (k : GoString) (v : TokenData)
    (hg : m.get k = some v) : utf8ValidString k = true :=
  (h.2 (k, v) ((get_eq_some_iff m h.1 k v).1 hg)).1

/-- Every digit of the table is an ASCII character. -/
theorem hexDigit_ascii (n : Nat) : (hexDigit n).toNat < 0x80 := by
  by_cases h : n < 16
  · interval_cases n <;> decide
  · have h0 : hexDigit n = '0' := by
      unfold hexDigit
      apply List.getD_eq_default
      simp [hextable]
      omega
    rw [h0]; decide

/-- A token is a well-formed string. -/
theorem valid_token (stream : Nat → Nat) :
    utf8ValidString (str (String.mk (tokenChars stream))) = true := by
  apply valid_str_of_ascii
  intro c hc
  simp [tokenChars] at hc
  rcases hc with ⟨i, _, h | h⟩ | h <;> subst h <;> exact hexDigit_ascii _


/-! ## The response writer -/

/-- After `http.Error` the status is the one already fixed, else the given code. -/
@[simp]
theorem httpError_status (w : ResponseWriter) (msg : String) (code : Nat) :
    (httpError w msg code).status = some (w.status.getD code) := by
  cases w with
  | mk st h b => cases st <;> rfl

/-- Go `http.Error` appends its message as a line. -/
@[simp]
theorem httpError_body (w : ResponseWriter) (msg : String) (code : Nat) :
    (httpError w msg code).body = w.body ++ [.line msg] := by
  cases w with
  | mk st h b => cases st <;> rfl

/-- After a write the status is the one already fixed, else 200. -/
@[simp]
theorem fprintln_status (w : ResponseWriter) (msg : String) :
    (fprintln w msg).status = some (w.status.getD 200) := by
  cases w with
  | mk st h b => cases st <;> rfl

/-- Go `fmt.Fprintln` appends its line. -/
@[simp]
theorem fprintln_body (w : ResponseWriter) (msg : String) :
    (fprintln w msg).body = w.body ++ [.line msg] := by
  cases w with
  | mk st h b => cases st <;> rfl

/-- After the encoder wrote, the status is the one already fixed, else 200. -/
@[simp]
theorem jsonEncode_status (w : ResponseWriter) (v : TokenResponse) :
    (jsonEncode w v).status = some (w.status.getD 200) := by
  cases w with
  | mk st h b => cases st <;> rfl

/-- The encoder appends the JSON value. -/
@[simp]
theorem jsonEncode_body (w : ResponseWriter) (v : TokenResponse) :
    (jsonEncode w v).body = w.body ++ [.json v] := by
  cases w with
  | mk st h b => cases st <;> rfl

/-- Setting a header does not touch the status. -/
@[simp]
theorem headerSet_status (w : ResponseWriter) (k v : String) :
    (w.headerSet k v).status = w.status := rfl

/-- Setting a header does not touch the body. -/
@[simp]
theorem headerSet_body (w : ResponseWriter) (k v : String) :
    (w.headerSet k v).body = w.body := rfl

/-- A fresh writer has no status yet. -/
@[simp]
theorem fresh_status : ResponseWriter.fresh.status = none := rfl

/-- A fresh writer has an empty body. -/
@[simp]
theorem fresh_body : ResponseWriter.fresh.body = [] := rfl

/-! ## Token generation -/

/-- The token drawn from a working source, character by character. -/
@[simp]
theorem generateToken_ok (stream : Nat → Nat) :
    generateToken (.ok stream) = (String.mk (tokenChars stream), none) := rfl

/-- A failing source gives the empty string and the error. -/
@[simp]
theorem generateToken_error (e : String) : generateToken (.error e) = ("", some e) := rfl

/-- Every digit of the table is a lowercase hex digit. -/
theorem isLowerHex_hexDigit (n : Nat) : isLowerHex (hexDigit n) = true := by
  by_cases h : n < 16
  · interval_cases n <;> decide
  · have h0 : hexDigit n = '0' := by
      unfold hexDigit
      apply List.getD_eq_default
      simp [hextable]
      omega
    rw [h0]; decide

/-- Every character of a token is a lowercase hex digit. -/
theorem tokenChars_hex (stream : Nat → Nat) :
    ∀ c ∈ tokenChars stream, isLowerHex c = true := by
  intro c hc
  simp [tokenChars] at hc
  rcases hc with ⟨i, _, h | h⟩ | h <;> subst h <;> exact isLowerHex_hexDigit _

/-- The token depends only on bytes 0..11 and the high nibble of byte 12. -/
theorem tokenChars_congr (s1 s2 : Nat → Nat) (h : ∀ i, i < 12 → s1 i % 256 = s2 i % 256)
    (h12 : s1 12 % 256 / 16 = s2 12 % 256 / 16) : tokenChars s1 = tokenChars s2 := by
  unfold tokenChars
  rw [h12]
  congr 1
  apply List.flatMap_congr
  intro i hi
  rw [h i (by simpa using hi)]

/-- C7: on the bytes `stream i % 256` (i < 25) delivered by the random source,
`generateToken` returns without error the first 25 characters of their 50-character
lowercase hex encoding: length 25, every character in [0-9a-f], characters `2i` and
`2i+1` (counted from 0) the high and low digit of byte `i` for `i < 12`, character 24
the high digit of byte 12.  Sources that agree on bytes 0..11 and on the high nibble of
byte 12 give the same token.  When the source reports an error the result is the empty
string with that error. -/
theorem generateToken_spec (stream : Nat → Nat) :
    (∃ t : String, generateToken (.ok stream) = (t, none) ∧
      t = sliceTo (hexEncodeToString ((List.range 25).map (fun i => stream i % 256))) 25 ∧
      (hexEncodeToString ((List.range 25).map (fun i => stream i % 256))).length = 50 ∧
      t.length = 25 ∧
      (∀ c ∈ t.toList, isLowerHex c = true) ∧
      (∀ i, i < 12 →
        t.toList[2 * i]? = some (hexDigit (stream i % 256 / 16)) ∧
        t.toList[2 * i + 1]? = some (hexDigit (stream i % 256 % 16))) ∧
      t.toList[24]? = some (hexDigit (stream 12 % 256 / 16))) ∧
    (∀ stream2 : Nat → Nat, (∀ i, i < 12 → stream i % 256 = stream2 i % 256) →
      stream 12 % 256 / 16 = stream2 12 % 256 / 16 →
      generateToken (.ok stream) = generateToken (.ok stream2)) ∧
    (∀ e : String, generateToken (.error e) = ("", some e)) := by
  refine ⟨⟨String.mk (tokenChars stream), rfl, rfl, rfl, rfl, tokenChars_hex stream, ?_, rfl⟩,
    ?_, fun e => rfl⟩
  · intro i hi
    interval_cases i <;> exact ⟨rfl, rfl⟩
  · intro stream2 h h12
    rw [generateToken_ok, generateToken_ok, tokenChars_congr stream stream2 h h12]

/-- C7 at a concrete source: the bytes 0x00, 0x11, ..., 0xbb, 0xcc, ... and a source with
the same first twelve bytes, 0xc0 as thirteenth and zeros after it give the same token. -/
theorem generateToken_spec_witness :
    (generateToken (.ok (fun i => 17 * i))).1 = "00112233445566778899aabbc" ∧
    generateToken (.ok (fun i => 17 * i)) =
      generateToken (.ok (fun i => if i < 12 then 17 * i else if i = 12 then 192 else 0)) :=
  ⟨by decide, (generateToken_spec (fun i => 17 * i)).2.1
    (fun i => if i < 12 then 17 * i else if i = 12 then 192 else 0)
    (by intro i hi; interval_cases i <;> rfl) (by decide)⟩

/-! ## Issuance -/

/-- What an issuance that gets through leaves: the outcome of an authorized request with
non-empty parameters for a user without a record, on an absent file or a JSON object, with
a working random source and a successful write. -/
theorem issue_outcome (env : Env) (r : Request) (disk : File) (stream : Nat → Nat)
    (hauth : r.header "X-Custom-Auth" = env.SHARED_SECRET)
    (hU : r.query "user-discord-id" ≠ "") (hG : r.query "guild-discord-id" ≠ "")
    (hdisk : disk = .absent ∨ ∃ m, disk = .content (.object m))
    (hno : disk.records (r.query "user-discord-id") = none)
    (hrand : env.rand = .ok stream) (hwrite : env.writeErr = none) :
    generateUserTokenHandler env ResponseWriter.fresh r ⟨disk, []⟩ =
      .returned
        (jsonEncode ((fprintln ResponseWriter.fresh "Token generated successfully").headerSet
          "Content-Type" "application/json") ⟨str (String.mk (tokenChars stream))⟩)
        ⟨.content (.object (marshalMembers (disk.decoded.set (r.query "user-discord-id")
            ⟨str (String.mk (tokenChars stream)), r.query "guild-discord-id"⟩))),
          [.readFile, .randRead, .readFile,
            .writeFile (.object (marshalMembers (disk.decoded.set (r.query "user-discord-id")
              ⟨str (String.mk (tokenChars stream)), r.query "guild-discord-id"⟩)))]⟩ := by
  rcases hdisk with rfl | ⟨m, rfl⟩
  · simp [generateUserTokenHandler, hauth, hU, hG, hrand, hwrite]
  · have hm : (decodeMembers m).get (r.query "user-discord-id") = none := hno
    simp [generateUserTokenHandler, hauth, hU, hG, hrand, hwrite, hm]

/-- C1, as stated, fails for parameters that are not well-formed UTF-8.  For the user id
0xff the answer is 200 but the file then holds no record for 0xff: the record is stored
under U+FFFD.  For the guild id 0xff the answer is 200 but the record of u1 holds the guild
U+FFFD, not 0xff. -/
theorem issue_invalid_utf8_counterexample :
    ((generateUserTokenHandler ⟨"s3cret", .ok (fun i => 17 * i), none⟩ ResponseWriter.fresh
        (mkRequest "s3cret" [0xff] "g1" "") ⟨.absent, []⟩).w.status = some 200 ∧
      (generateUserTokenHandler ⟨"s3cret", .ok (fun i => 17 * i), none⟩ ResponseWriter.fresh
        (mkRequest "s3cret" [0xff] "g1" "") ⟨.absent, []⟩).world.disk.records [0xff] = none ∧
      (generateUserTokenHandler ⟨"s3cret", .ok (fun i => 17 * i), none⟩ ResponseWriter.fresh
        (mkRequest "s3cret" [0xff] "g1" "") ⟨.absent, []⟩).world.disk.records
          [0xEF, 0xBF, 0xBD] = some ⟨"00112233445566778899aabbc", "g1"⟩) ∧
    ((generateUserTokenHandler ⟨"s3cret", .ok (fun i => 17 * i), none⟩ ResponseWriter.fresh
        (mkRequest "s3cret" "u1" [0xff] "") ⟨.absent, []⟩).w.status = some 200 ∧
      (generateUserTokenHandler ⟨"s3cret", .ok (fun i => 17 * i), none⟩ ResponseWriter.fresh
        (mkRequest "s3cret" "u1" [0xff] "") ⟨.absent, []⟩).world.disk.records "u1" =
          some ⟨"00112233445566778899aabbc", [0xEF, 0xBF, 0xBD]⟩ ∧
      (generateUserTokenHandler ⟨"s3cret", .ok (fun i => 17 * i), none⟩ ResponseWriter.fresh
        (mkRequest "s3cret" "u1" [0xff] "") ⟨.absent, []⟩).world.disk.records "u1" ≠
          some ⟨"00112233445566778899aabbc", [0xff]⟩) := by
  decide

/-- C1, amended by "U and G well-formed UTF-8": an authorized issuance with non-empty,
well-formed parameters for a user without a record, on an absent file or a JSON object,
with a working random source and a successful write, returns 200 with the success line
followed by the JSON token, a token of 25 lowercase hex characters, and leaves on disk the
previous mapping (empty for an absent file) extended by exactly that user's record, which
holds the token of the response and the requested guild. -/
theorem issue_fresh_user_succeeds (env : Env) (r : Request) (disk : File) (stream : Nat → Nat)
    (hauth : r.header "X-Custom-Auth" = env.SHARED_SECRET)
    (hU : r.query "user-discord-id" ≠ "") (hG : r.query "guild-discord-id" ≠ "")
    (hUv : utf8ValidString (r.query "user-discord-id") = true)
    (hGv : utf8ValidString (r.query "guild-discord-id") = true)
    (hdisk : disk = .absent ∨ ∃ m, disk = .content (.object m))
    (hno : disk.records (r.query "user-discord-id") = none)
    (hrand : env.rand = .ok stream) (hwrite : env.writeErr = none) :
    (generateToken env.rand).2 = none ∧
    (generateUserTokenHandler env ResponseWriter.fresh r ⟨disk, []⟩).completed = true ∧
    (generateUserTokenHandler env ResponseWriter.fresh r ⟨disk, []⟩).w.status = some 200 ∧
    (generateUserTokenHandler env ResponseWriter.fresh r ⟨disk, []⟩).w.body =
      [.line "Token generated successfully", .json ⟨(generateToken env.rand).1⟩] ∧
    (generateToken env.rand).1.length = 25 ∧
    (∀ c ∈ (generateToken env.rand).1.toList, isLowerHex c = true) ∧
    (generateUserTokenHandler env ResponseWriter.fresh r ⟨disk, []⟩).world.disk =
      .content (.object (marshalMembers (disk.decoded.set (r.query "user-discord-id")
        ⟨(generateToken env.rand).1, r.query "guild-discord-id"⟩))) ∧
    (generateUserTokenHandler env ResponseWriter.fresh r
      ⟨disk, []⟩).world.disk.records (r.query "user-discord-id") =
      some ⟨(generateToken env.rand).1, r.query "guild-discord-id"⟩ ∧
    (∀ V, V ≠ r.query "user-discord-id" →
      (generateUserTokenHandler env ResponseWriter.fresh r ⟨disk, []⟩).world.disk.records V =
        disk.records V) := by
  rw [issue_outcome env r disk stream hauth hU hG hdisk hno hrand hwrite, hrand,
    generateToken_ok]
  have hwf : (disk.decoded.set (r.query "user-discord-id")
      ⟨str (String.mk (tokenChars stream)), r.query "guild-discord-id"⟩).WellFormed :=
    wellFormed_set _ _ _ (wellFormed_decoded disk) hUv (valid_token stream) hGv
  refine ⟨rfl, rfl, rfl, rfl, rfl, tokenChars_hex stream, rfl, ?_, ?_⟩
  · simp only [Outcome.world]
    rw [records_marshal _ hwf, get_set]
    simp
  · intro V hV
    simp only [Outcome.world]
    rw [records_marshal _ hwf, get_set]
    simp [hV, File.records]

/-- C1 amended, at a concrete request: user u1, guild g1, absent file. -/
theorem issue_fresh_user_succeeds_witness :
    (generateUserTokenHandler ⟨"s3cret", .ok (fun i => 17 * i), none⟩ ResponseWriter.fresh
      (mkRequest "s3cret" "u1" "g1" "") ⟨.absent, []⟩).w.status = some 200 ∧
    (generateUserTokenHandler ⟨"s3cret", .ok (fun i => 17 * i), none⟩ ResponseWriter.fresh
      (mkRequest "s3cret" "u1" "g1" "") ⟨.absent, []⟩).w.body =
      [.line "Token generated successfully",
        .json ⟨(generateToken (.ok (fun i => 17 * i))).1⟩] ∧
    (generateToken (.ok (fun i => 17 * i))).1.length = 25 ∧
    (generateUserTokenHandler ⟨"s3cret", .ok (fun i => 17 * i), none⟩ ResponseWriter.fresh
      (mkRequest "s3cret" "u1" "g1" "") ⟨.absent, []⟩).world.disk.records "u1" =
      some ⟨(generateToken (.ok (fun i => 17 * i))).1, "g1"⟩ :=
  have h := issue_fresh_user_succeeds ⟨"s3cret", .ok (fun i => 17 * i), none⟩
    (mkRequest "s3cret" "u1" "g1" "") .absent (fun i => 17 * i)
    (by decide) (by decide) (by decide) (by decide) (by decide) (Or.inl rfl) (by decide)
    rfl rfl
  ⟨h.2.2.1, h.2.2.2.1, h.2.2.2.2.1, h.2.2.2.2.2.2.2.1⟩

/-- C5: when the header differs from the secret the handler answers 401 `Unauthorized`
without any external call (no read, no write, no random draw), the file is as before and
the body carries no token; when the header equals the secret the status is never 401; with
an empty secret the status is 401 exactly for the non-empty headers. -/
theorem unauthorized_iff_header_differs (env : Env) (r : Request) (disk : File) :
    (r.header "X-Custom-Auth" ≠ env.SHARED_SECRET →
      generateUserTokenHandler env ResponseWriter.fresh r ⟨disk, []⟩ =
        .returned (httpError ResponseWriter.fresh "Unauthorized" 401) ⟨disk, []⟩ ∧
      (generateUserTokenHandler env ResponseWriter.fresh r ⟨disk, []⟩).w.status = some 401 ∧
      (generateUserTokenHandler env ResponseWriter.fresh r ⟨disk, []⟩).w.body =
        [.line "Unauthorized"] ∧
      carriesToken (generateUserTokenHandler env ResponseWriter.fresh r ⟨disk, []⟩).w.body =
        false ∧
      (generateUserTokenHandler env ResponseWriter.fresh r ⟨disk, []⟩).world.log = [] ∧
      (generateUserTokenHandler env ResponseWriter.fresh r ⟨disk, []⟩).world.disk = disk) ∧
    (r.header "X-Custom-Auth" = env.SHARED_SECRET →
      (generateUserTokenHandler env ResponseWriter.fresh r ⟨disk, []⟩).w.status ≠ some 401) ∧
    (env.SHARED_SECRET = "" →
      ((generateUserTokenHandler env ResponseWriter.fresh r ⟨disk, []⟩).w.status = some 401 ↔
        r.header "X-Custom-Auth" ≠ "")) := by
  have hne : r.header "X-Custom-Auth" ≠ env.SHARED_SECRET →
      generateUserTokenHandler env ResponseWriter.fresh r ⟨disk, []⟩ =
        .returned (httpError ResponseWriter.fresh "Unauthorized" 401) ⟨disk, []⟩ := by
    intro h
    simp [generateUserTokenHandler, h]
  have heq : r.header "X-Custom-Auth" = env.SHARED_SECRET →
      (generateUserTokenHandler env ResponseWriter.fresh r ⟨disk, []⟩).w.status ≠ some 401 := by
    intro h
    obtain ⟨sec, rand, werr⟩ := env
    simp only at h
    by_cases hp : r.query "user-discord-id" = "" ∨ r.query "guild-discord-id" = ""
    · simp [generateUserTokenHandler, h, hp]
    · rcases disk with _ | _ | c | _ | left | m
      · rcases rand with e | stream <;> rcases werr with _ | _ | _ <;>
          simp [generateUserTokenHandler, h, hp]
      · rcases rand with e | stream <;> rcases werr with _ | _ | _ <;>
          simp [generateUserTokenHandler, h, hp]
      · rcases hl : (decodeMembers c).get (r.query "user-discord-id") with _ | rec <;>
          rcases rand with e | stream <;> rcases werr with _ | _ | _ <;>
          simp [generateUserTokenHandler, h, hp, hl]
      · rcases rand with e | stream <;> rcases werr with _ | _ | _ <;>
          simp [generateUserTokenHandler, h, hp]
      · rcases rand with e | stream <;> rcases werr with _ | _ | _ <;>
          simp [generateUserTokenHandler, h, hp]
      · rcases hl : TokenMap.get m (r.query "user-discord-id") with _ | rec <;>
          rcases rand with e | stream <;> rcases werr with _ | _ | _ <;>
          simp [generateUserTokenHandler, h, hp, hl]
  refine ⟨fun h => ?_, heq, fun hs => ?_⟩
  · rw [hne h]
    exact ⟨rfl, rfl, rfl, rfl, rfl, rfl⟩
  · constructor
    · intro h401 hh
      exact heq (by rw [hh, hs]) h401
    · intro hh
      rw [hne (by rw [hs]; exact hh)]
      rfl

/-- C5 at concrete requests: a wrong header against the secret s3cret, the right header, and
a non-empty header against an unset secret. -/
theorem unauthorized_iff_header_differs_witness :
    (generateUserTokenHandler ⟨"s3cret", .ok (fun i => 17 * i), none⟩ ResponseWriter.fresh
        (mkRequest "guess" "u1" "g1" "") ⟨.absent, []⟩).w.status = some 401 ∧
    (generateUserTokenHandler ⟨"s3cret", .ok (fun i => 17 * i), none⟩ ResponseWriter.fresh
        (mkRequest "s3cret" "u1" "g1" "") ⟨.absent, []⟩).w.status ≠ some 401 ∧
    (generateUserTokenHandler ⟨"", .ok (fun i => 17 * i), none⟩ ResponseWriter.fresh
        (mkRequest "guess" "u1" "g1" "") ⟨.absent, []⟩).w.status = some 401 :=
  ⟨((unauthorized_iff_header_differs ⟨"s3cret", .ok (fun i => 17 * i), none⟩
      (mkRequest "guess" "u1" "g1" "") .absent).1 (by decide)).2.1,
   (unauthorized_iff_header_differs ⟨"s3cret", .ok (fun i => 17 * i), none⟩
      (mkRequest "s3cret" "u1" "g1" "") .absent).2.1 (by decide),
   ((unauthorized_iff_header_differs ⟨"", .ok (fun i => 17 * i), none⟩
      (mkRequest "guess" "u1" "g1" "") .absent).2.2 rfl).2 (by decide)⟩

/-- C6, as stated, fails on `/generate-user-token`: with the secret s3cret, no X-Custom-Auth
header and no user-discord-id, the answer is 401, not 400. -/
theorem missing_user_unauthorized_counterexample :
    (mkRequest "" "" "g1" "").query "user-discord-id" = "" ∧
    (generateUserTokenHandler ⟨"s3cret", .ok (fun i => 17 * i), none⟩ ResponseWriter.fresh
        (mkRequest "" "" "g1" "") ⟨.absent, []⟩).w.status = some 401 ∧
    (generateUserTokenHandler ⟨"s3cret", .ok (fun i => 17 * i), none⟩ ResponseWriter.fresh
        (mkRequest "" "" "g1" "") ⟨.absent, []⟩).w.status ≠ some 400 := by
  decide

/-- C6, amended: with an empty user-discord-id, `/verify` answers 400 whatever the other
parameters, the header and the file are, and `/generate-user-token` answers 400 when the
X-Custom-Auth header equals the secret (401 when it differs); in each case the handler
makes no external call and the file is as before. -/
theorem missing_user_bad_request (env : Env) (r : Request) (disk : File)
    (hU : r.query "user-discord-id" = "") :
    ((verifyHandler env ResponseWriter.fresh r ⟨disk, []⟩).w.status = some 400 ∧
      (verifyHandler env ResponseWriter.fresh r ⟨disk, []⟩).world = ⟨disk, []⟩) ∧
    (r.header "X-Custom-Auth" = env.SHARED_SECRET →
      (generateUserTokenHandler env ResponseWriter.fresh r ⟨disk, []⟩).w.status = some 400 ∧
      (generateUserTokenHandler env ResponseWriter.fresh r ⟨disk, []⟩).world = ⟨disk, []⟩) ∧
    (r.header "X-Custom-Auth" ≠ env.SHARED_SECRET →
      (generateUserTokenHandler env ResponseWriter.fresh r ⟨disk, []⟩).w.status = some 401 ∧
      (generateUserTokenHandler env ResponseWriter.fresh r ⟨disk, []⟩).world = ⟨disk, []⟩) := by
  refine ⟨?_, fun h => ?_, fun h => ?_⟩
  · simp [verifyHandler, hU]
  · simp [generateUserTokenHandler, hU, h]
  · simp [generateUserTokenHandler, h]

/-- C6 amended, at concrete requests without user-discord-id: a verify, and an authorized
issuance, each on a file holding a record. -/
theorem missing_user_bad_request_witness :
    (verifyHandler ⟨"s3cret", .ok (fun i => 17 * i), none⟩ ResponseWriter.fresh
        (mkRequest "" "" "" "abc")
        ⟨.content (.object (TokenMap.empty.set "u1" ⟨"abc", "g1"⟩)), []⟩).w.status = some 400 ∧
    (generateUserTokenHandler ⟨"s3cret", .ok (fun i => 17 * i), none⟩ ResponseWriter.fresh
        (mkRequest "s3cret" "" "g1" "")
        ⟨.content (.object (TokenMap.empty.set "u1" ⟨"abc", "g1"⟩)), []⟩).w.status = some 400 :=
  ⟨(missing_user_bad_request ⟨"s3cret", .ok (fun i => 17 * i), none⟩
      (mkRequest "" "" "" "abc") (.content (.object (TokenMap.empty.set "u1" ⟨"abc", "g1"⟩)))
      (by decide)).1.1,
   ((missing_user_bad_request ⟨"s3cret", .ok (fun i => 17 * i), none⟩
      (mkRequest "s3cret" "" "g1" "") (.content (.object (TokenMap.empty.set "u1" ⟨"abc", "g1"⟩)))
      (by decide)).2.1 (by decide)).1⟩

/-! ## Verification -/

/-- C2, as stated, fails for the empty user id: a file holding a record under the key ""
with the non-empty token abc, verified with user-discord-id "" and token abc, gives 400. -/
theorem verify_empty_user_counterexample :
    (File.content (.object (TokenMap.empty.set "" ⟨"abc", "g1"⟩))).records "" =
      some ⟨"abc", "g1"⟩ ∧
    (verifyHandler ⟨"s3cret", .ok (fun i => 17 * i), none⟩ ResponseWriter.fresh
        (mkRequest "" "" "" "abc")
        ⟨.content (.object (TokenMap.empty.set "" ⟨"abc", "g1"⟩)), []⟩).w.status = some 400 ∧
    (verifyHandler ⟨"s3cret", .ok (fun i => 17 * i), none⟩ ResponseWriter.fresh
        (mkRequest "" "" "" "abc")
        ⟨.content (.object (TokenMap.empty.set "" ⟨"abc", "g1"⟩)), []⟩).w.status ≠ some 200 ∧
    (verifyHandler ⟨"s3cret", .ok (fun i => 17 * i), none⟩ ResponseWriter.fresh
        (mkRequest "" "" "" "abc")
        ⟨.content (.object (TokenMap.empty.set "" ⟨"abc", "g1"⟩)), []⟩).world.disk.records ""
      = some ⟨"abc", "g1"⟩ := by
  decide

/-- C2, amended by "U non-empty": on a file holding the JSON object `m` with a record for the
non-empty user U whose token T is non-empty, a verify for U with T returns 200 with
`Verification successful` as its first line; when the write succeeds the file afterwards
holds the records of `m` without the entry for U, every other record unchanged, and any later
verify for U with a non-empty token returns 404. -/
theorem verify_is_single_use (env : Env) (r : Request) (m : TokenMap) (rec : TokenData)
    (hU : r.query "user-discord-id" ≠ "") (hT : r.query "token" ≠ "")
    (hrec : (File.content (.object m)).records (r.query "user-discord-id") = some rec)
    (htok : rec.Token = r.query "token") :
    (verifyHandler env ResponseWriter.fresh r ⟨.content (.object m), []⟩).completed = true ∧
    (verifyHandler env ResponseWriter.fresh r ⟨.content (.object m), []⟩).w.status = some 200 ∧
    (verifyHandler env ResponseWriter.fresh r ⟨.content (.object m), []⟩).w.body.head? =
      some (.line "Verification successful") ∧
    (env.writeErr = none →
      (verifyHandler env ResponseWriter.fresh r ⟨.content (.object m), []⟩).w.body =
        [.line "Verification successful"] ∧
      (verifyHandler env ResponseWriter.fresh r ⟨.content (.object m), []⟩).world.disk =
        .content (.object (marshalMembers
          ((decodeMembers m).delete (r.query "user-discord-id")))) ∧
      (verifyHandler env ResponseWriter.fresh r
        ⟨.content (.object m), []⟩).world.disk.records (r.query "user-discord-id") = none ∧
      (∀ V, V ≠ r.query "user-discord-id" →
        (verifyHandler env ResponseWriter.fresh r
          ⟨.content (.object m), []⟩).world.disk.records V =
          (File.content (.object m)).records V) ∧
      (∀ (env2 : Env) (r2 : Request),
        r2.query "user-discord-id" = r.query "user-discord-id" → r2.query "token" ≠ "" →
        (verifyHandler env2 ResponseWriter.fresh r2
          ⟨(verifyHandler env ResponseWriter.fresh r ⟨.content (.object m), []⟩).world.disk,
            []⟩).w.status = some 404)) := by
  have hget : (decodeMembers m).get (r.query "user-discord-id") = some rec := hrec
  have hwf : ((decodeMembers m).delete (r.query "user-discord-id")).WellFormed :=
    wellFormed_delete _ _ (wellFormed_decodeMembers m)
  obtain ⟨sec, rand, werr⟩ := env
  rcases werr with _ | _ | _
  · simp only [verifyHandler, hU, hT, hget, htok, ioutilReadFile, jsonUnmarshal,
      GoMap.lookup, GoMap.delete, jsonMarshal, ioutilWriteFile, Outcome.w, Outcome.world,
      Outcome.completed, or_self, if_false, if_true, Option.isSome_none,
      Bool.false_eq_true, List.nil_append, fprintln_status, fprintln_body, fresh_status,
      fresh_body, Option.getD_none, List.head?_cons, forall_true_left, true_and]
    refine ⟨?_, ?_, ?_⟩
    · rw [records_marshal _ hwf, get_delete]
      simp
    · intro V hV
      rw [records_marshal _ hwf, get_delete]
      simp [hV, File.records]
    · intro env2 r2 h2 hT2
      have hnone : (decodeMembers (marshalMembers
          ((decodeMembers m).delete (r.query "user-discord-id")))).get
          (r.query "user-discord-id") = none := by
        rw [get_decode_marshal _ hwf, get_delete]
        simp
      simp [verifyHandler, h2, hU, hT2, hnone]
  · simp [verifyHandler, hU, hT, hget, htok]
  · simp [verifyHandler, hU, hT, hget, htok]

/-- C2 amended, at a concrete store: u1 holds abc, u2 holds def; u1 verifies with abc. -/
theorem verify_is_single_use_witness :
    (verifyHandler ⟨"s3cret", .ok (fun i => 17 * i), none⟩ ResponseWriter.fresh
      (mkRequest "" "u1" "" "abc")
      ⟨.content (.object ((TokenMap.empty.set "u1" ⟨"abc", "g1"⟩).set "u2" ⟨"def", "g2"⟩)),
        []⟩).w.status = some 200 ∧
    (verifyHandler ⟨"s3cret", .ok (fun i => 17 * i), none⟩ ResponseWriter.fresh
      (mkRequest "" "u1" "" "zzz")
      ⟨(verifyHandler ⟨"s3cret", .ok (fun i => 17 * i), none⟩ ResponseWriter.fresh
        (mkRequest "" "u1" "" "abc")
        ⟨.content (.object ((TokenMap.empty.set "u1" ⟨"abc", "g1"⟩).set "u2" ⟨"def", "g2"⟩)),
          []⟩).world.disk, []⟩).w.status = some 404 :=
  ⟨(verify_is_single_use ⟨"s3cret", .ok (fun i => 17 * i), none⟩ (mkRequest "" "u1" "" "abc")
      ((TokenMap.empty.set "u1" ⟨"abc", "g1"⟩).set "u2" ⟨"def", "g2"⟩) ⟨"abc", "g1"⟩
      (by decide) (by decide) (by decide) (by decide)).2.1,
   ((verify_is_single_use ⟨"s3cret", .ok (fun i => 17 * i), none⟩ (mkRequest "" "u1" "" "abc")
      ((TokenMap.empty.set "u1" ⟨"abc", "g1"⟩).set "u2" ⟨"def", "g2"⟩) ⟨"abc", "g1"⟩
      (by decide) (by decide) (by decide) (by decide)).2.2.2 rfl).2.2.2.2
      ⟨"s3cret", .ok (fun i => 17 * i), none⟩ (mkRequest "" "u1" "" "zzz")
      (by decide) (by decide)⟩

/-- C4, as stated, fails in two places.  For the empty user id the wrong token gives 400, not
401.  For a non-empty user whose stored token is empty, the wrong token gives 401 but the
following verify with the stored (empty) token gives 400, not 200. -/
theorem wrong_token_counterexample :
    ((File.content (.object (TokenMap.empty.set "" ⟨"abc", "g1"⟩))).records "" =
        some ⟨"abc", "g1"⟩ ∧
      (verifyHandler ⟨"s3cret", .ok (fun i => 17 * i), none⟩ ResponseWriter.fresh
        (mkRequest "" "" "" "zzz")
        ⟨.content (.object (TokenMap.empty.set "" ⟨"abc", "g1"⟩)), []⟩).w.status = some 400) ∧
    ((File.content (.object (TokenMap.empty.set "u1" ⟨"", "g1"⟩))).records "u1" =
        some ⟨"", "g1"⟩ ∧
      (verifyHandler ⟨"s3cret", .ok (fun i => 17 * i), none⟩ ResponseWriter.fresh
        (mkRequest "" "u1" "" "zzz")
        ⟨.content (.object (TokenMap.empty.set "u1" ⟨"", "g1"⟩)), []⟩).w.status = some 401 ∧
      (verifyHandler ⟨"s3cret", .ok (fun i => 17 * i), none⟩ ResponseWriter.fresh
        (mkRequest "" "u1" "" "")
        ⟨(verifyHandler ⟨"s3cret", .ok (fun i => 17 * i), none⟩ ResponseWriter.fresh
          (mkRequest "" "u1" "" "zzz")
          ⟨.content (.object (TokenMap.empty.set "u1" ⟨"", "g1"⟩)), []⟩).world.disk,
          []⟩).w.status = some 400) := by
  decide

/-- C4, amended by "U non-empty" and, for the following verify, "T non-empty": on a file
holding the JSON object `m` with a record for the non-empty user U, a verify for U with a
non-empty token different from the stored one returns 401 `Invalid token`, does not write the
file, and leaves it as it was; when the stored token T is non-empty, a following verify for U
with T returns 200. -/
theorem wrong_token_keeps_record (env : Env) (r : Request) (m : TokenMap) (rec : TokenData)
    (hU : r.query "user-discord-id" ≠ "") (hT : r.query "token" ≠ "")
    (hrec : (File.content (.object m)).records (r.query "user-discord-id") = some rec)
    (hne : r.query "token" ≠ rec.Token) :
    (verifyHandler env ResponseWriter.fresh r ⟨.content (.object m), []⟩).completed = true ∧
    (verifyHandler env ResponseWriter.fresh r ⟨.content (.object m), []⟩).w.status = some 401 ∧
    (verifyHandler env ResponseWriter.fresh r ⟨.content (.object m), []⟩).w.body =
      [.line "Invalid token"] ∧
    wroteFile (verifyHandler env ResponseWriter.fresh r
      ⟨.content (.object m), []⟩).world.log = false ∧
    (verifyHandler env ResponseWriter.fresh r ⟨.content (.object m), []⟩).world.disk =
      .content (.object m) ∧
    (rec.Token ≠ "" → ∀ (env2 : Env) (r2 : Request),
      r2.query "user-discord-id" = r.query "user-discord-id" → r2.query "token" = rec.Token →
      (verifyHandler env2 ResponseWriter.fresh r2
        ⟨(verifyHandler env ResponseWriter.fresh r ⟨.content (.object m), []⟩).world.disk,
          []⟩).w.status = some 200) := by
  have hget : (decodeMembers m).get (r.query "user-discord-id") = some rec := hrec
  have hne2 : ¬ rec.Token = r.query "token" := fun h => hne h.symm
  simp [verifyHandler, hU, hT, hget, hne2, wroteFile]
  intro hTok env2 r2 h2 ht2
  obtain ⟨sec, rand, werr⟩ := env2
  rcases werr with _ | _ | _ <;> simp [verifyHandler, h2, ht2, hU, hTok, hget]

/-- C4 amended, at a concrete store: u1 holds abc, a verify with zzz, then one with abc. -/
theorem wrong_token_keeps_record_witness :
    (verifyHandler ⟨"s3cret", .ok (fun i => 17 * i), none⟩ ResponseWriter.fresh
      (mkRequest "" "u1" "" "zzz")
      ⟨.content (.object (TokenMap.empty.set "u1" ⟨"abc", "g1"⟩)), []⟩).w.status = some 401 ∧
    (verifyHandler ⟨"s3cret", .ok (fun i => 17 * i), none⟩ ResponseWriter.fresh
      (mkRequest "" "u1" "" "abc")
      ⟨(verifyHandler ⟨"s3cret", .ok (fun i => 17 * i), none⟩ ResponseWriter.fresh
        (mkRequest "" "u1" "" "zzz")
        ⟨.content (.object (TokenMap.empty.set "u1" ⟨"abc", "g1"⟩)), []⟩).world.disk,
        []⟩).w.status = some 200 :=
  ⟨(wrong_token_keeps_record ⟨"s3cret", .ok (fun i => 17 * i), none⟩
      (mkRequest "" "u1" "" "zzz") (TokenMap.empty.set "u1" ⟨"abc", "g1"⟩) ⟨"abc", "g1"⟩
      (by decide) (by decide) (by decide) (by decide)).2.1,
   (wrong_token_keeps_record ⟨"s3cret", .ok (fun i => 17 * i), none⟩
      (mkRequest "" "u1" "" "zzz") (TokenMap.empty.set "u1" ⟨"abc", "g1"⟩) ⟨"abc", "g1"⟩
      (by decide) (by decide) (by decide) (by decide)).2.2.2.2.2 (by decide)
      ⟨"s3cret", .ok (fun i => 17 * i), none⟩ (mkRequest "" "u1" "" "abc")
      (by decide) (by decide)⟩

/-! ## Second issuance -/

/-- C3, as stated, fails in two places.  For the empty user id: on a file holding a record
under the key "", an authorized issuance for the user "" with a non-empty guild gives 400,
not 409.  For a user id that is not well-formed UTF-8: two issuances for the user 0xff from
an absent file give 200 and 200 again, because the first record is stored under U+FFFD. -/
theorem second_issue_counterexample :
    ((File.content (.object (TokenMap.empty.set "" ⟨"abc", "g1"⟩))).records "" =
        some ⟨"abc", "g1"⟩ ∧
      (generateUserTokenHandler ⟨"s3cret", .ok (fun i => 17 * i), none⟩ ResponseWriter.fresh
        (mkRequest "s3cret" "" "g2" "")
        ⟨.content (.object (TokenMap.empty.set "" ⟨"abc", "g1"⟩)), []⟩).w.status = some 400 ∧
      (generateUserTokenHandler ⟨"s3cret", .ok (fun i => 17 * i), none⟩ ResponseWriter.fresh
        (mkRequest "s3cret" "" "g2" "")
        ⟨.content (.object (TokenMap.empty.set "" ⟨"abc", "g1"⟩)), []⟩).w.status ≠
          some 409) ∧
    ((generateUserTokenHandler ⟨"s3cret", .ok (fun i => 17 * i), none⟩ ResponseWriter.fresh
        (mkRequest "s3cret" [0xff] "g1" "") ⟨.absent, []⟩).w.status = some 200 ∧
      (generateUserTokenHandler ⟨"s3cret", .ok (fun _ => 255), none⟩ ResponseWriter.fresh
        (mkRequest "s3cret" [0xff] "g2" "")
        ⟨(generateUserTokenHandler ⟨"s3cret", .ok (fun i => 17 * i), none⟩
          ResponseWriter.fresh (mkRequest "s3cret" [0xff] "g1" "")
          ⟨.absent, []⟩).world.disk, []⟩).w.status = some 200 ∧
      (generateUserTokenHandler ⟨"s3cret", .ok (fun _ => 255), none⟩ ResponseWriter.fresh
        (mkRequest "s3cret" [0xff] "g2" "")
        ⟨(generateUserTokenHandler ⟨"s3cret", .ok (fun i => 17 * i), none⟩
          ResponseWriter.fresh (mkRequest "s3cret" [0xff] "g1" "")
          ⟨.absent, []⟩).world.disk, []⟩).world.disk.records [0xEF, 0xBF, 0xBD] =
        some ⟨"fffffffffffffffffffffffff", "g2"⟩) := by
  decide

/-- C3, amended by "U non-empty" and, for the two issuances in a row, "U well-formed UTF-8":
on a file holding a JSON object with a record for the non-empty user U, an authorized
issuance for U with a non-empty guild returns 409, carries no token, draws no random bytes,
does not write the file and leaves it as it was.  In particular, after a first issuance for
a well-formed U that succeeded on a store without U, a second authorized issuance for U
returns 409, leaves the file as the first call wrote it, and the record of U is still the
one the first call stored. -/
theorem second_issue_is_rejected (env : Env) (r : Request)
    (hauth : r.header "X-Custom-Auth" = env.SHARED_SECRET)
    (hU : r.query "user-discord-id" ≠ "") (hG : r.query "guild-discord-id" ≠ "") :
    (∀ (m : TokenMap) (rec : TokenData),
      (File.content (.object m)).records (r.query "user-discord-id") = some rec →
      (generateUserTokenHandler env ResponseWriter.fresh r
        ⟨.content (.object m), []⟩).completed = true ∧
      (generateUserTokenHandler env ResponseWriter.fresh r
        ⟨.content (.object m), []⟩).w.status = some 409 ∧
      (generateUserTokenHandler env ResponseWriter.fresh r
        ⟨.content (.object m), []⟩).w.body = [.line "User already has a token"] ∧
      carriesToken (generateUserTokenHandler env ResponseWriter.fresh r
        ⟨.content (.object m), []⟩).w.body = false ∧
      (generateUserTokenHandler env ResponseWriter.fresh r
        ⟨.content (.object m), []⟩).world.log = [.readFile] ∧
      (generateUserTokenHandler env ResponseWriter.fresh r
        ⟨.content (.object m), []⟩).world.disk = .content (.object m)) ∧
    (∀ (env1 : Env) (r1 : Request) (disk : File) (stream : Nat → Nat),
      r1.header "X-Custom-Auth" = env1.SHARED_SECRET →
      r1.query "user-discord-id" = r.query "user-discord-id" →
      r1.query "guild-discord-id" ≠ "" →
      utf8ValidString (r.query "user-discord-id") = true →
      (disk = .absent ∨ ∃ m, disk = .content (.object m)) →
      disk.records (r.query "user-discord-id") = none →
      env1.rand = .ok stream → env1.writeErr = none →
      (generateUserTokenHandler env1 ResponseWriter.fresh r1 ⟨disk, []⟩).w.status = some 200 ∧
      (generateUserTokenHandler env ResponseWriter.fresh r
        ⟨(generateUserTokenHandler env1 ResponseWriter.fresh r1 ⟨disk, []⟩).world.disk,
          []⟩).w.status = some 409 ∧
      (generateUserTokenHandler env ResponseWriter.fresh r
        ⟨(generateUserTokenHandler env1 ResponseWriter.fresh r1 ⟨disk, []⟩).world.disk,
          []⟩).world.disk =
        (generateUserTokenHandler env1 ResponseWriter.fresh r1 ⟨disk, []⟩).world.disk ∧
      (generateUserTokenHandler env ResponseWriter.fresh r
        ⟨(generateUserTokenHandler env1 ResponseWriter.fresh r1 ⟨disk, []⟩).world.disk,
          []⟩).world.disk.records (r.query "user-discord-id") =
        some ⟨(generateToken env1.rand).1, coerceUTF8 (r1.query "guild-discord-id")⟩) := by
  have hconf : ∀ (m : TokenMap) (rec : TokenData),
      (File.content (.object m)).records (r.query "user-discord-id") = some rec →
      generateUserTokenHandler env ResponseWriter.fresh r ⟨.content (.object m), []⟩ =
        .returned (httpError ResponseWriter.fresh "User already has a token" 409)
          ⟨.content (.object m), [.readFile]⟩ := by
    intro m rec hm
    have hget : (decodeMembers m).get (r.query "user-discord-id") = some rec := hm
    simp [generateUserTokenHandler, hauth, hU, hG, hget]
  refine ⟨fun m rec hm => ?_, ?_⟩
  · rw [hconf m rec hm]
    exact ⟨rfl, rfl, rfl, rfl, rfl, rfl⟩
  · intro env1 r1 disk stream hauth1 hU1 hG1 hUv hdisk hno hrand hwrite
    have hU1n : r1.query "user-discord-id" ≠ "" := by rw [hU1]; exact hU
    have hno1 : disk.records (r1.query "user-discord-id") = none := by rw [hU1]; exact hno
    rw [issue_outcome env1 r1 disk stream hauth1 hU1n hG1 hdisk hno1 hrand hwrite, hU1]
    have hwf := wellFormed_decoded disk
    have hnd : ((disk.decoded.set (r.query "user-discord-id")
        ⟨str (String.mk (tokenChars stream)), r1.query "guild-discord-id"⟩).map
        Prod.fst).Nodup := by
      simp only [TokenMap.set, List.map_cons, List.nodup_cons]
      exact ⟨not_mem_keys_delete _ _, (wellFormed_delete _ _ hwf).1⟩
    have hkeys : ∀ e ∈ disk.decoded.set (r.query "user-discord-id")
        ⟨str (String.mk (tokenChars stream)), r1.query "guild-discord-id"⟩,
        utf8ValidString e.1 = true := by
      intro e he
      simp only [TokenMap.set, List.mem_cons] at he
      rcases he with rfl | he
      · exact hUv
      · exact ((wellFormed_delete _ _ hwf).2 e he).1
    have hstored : (File.content (.object (marshalMembers
        (disk.decoded.set (r.query "user-discord-id")
          ⟨str (String.mk (tokenChars stream)), r1.query "guild-discord-id"⟩)))).records
        (r.query "user-discord-id") =
        some ⟨str (String.mk (tokenChars stream)),
          coerceUTF8 (r1.query "guild-discord-id")⟩ := by
      rw [records_object, get_decode_marshal_keys _ hnd hkeys, get_set]
      simp [coerceData, coerceUTF8_of_valid _ (valid_token stream)]
    simp only [Outcome.world, Outcome.w]
    rw [hconf _ _ hstored, hrand]
    exact ⟨rfl, rfl, rfl, hstored⟩

/-- C3 amended, at a concrete run: u1 is issued a token on an absent file, then asks again. -/
theorem second_issue_is_rejected_witness :
    (generateUserTokenHandler ⟨"s3cret", .ok (fun i => 17 * i), none⟩ ResponseWriter.fresh
      (mkRequest "s3cret" "u1" "g1" "") ⟨.absent, []⟩).w.status = some 200 ∧
    (generateUserTokenHandler ⟨"s3cret", .ok (fun _ => 255), none⟩ ResponseWriter.fresh
      (mkRequest "s3cret" "u1" "g2" "")
      ⟨(generateUserTokenHandler ⟨"s3cret", .ok (fun i => 17 * i), none⟩ ResponseWriter.fresh
        (mkRequest "s3cret" "u1" "g1" "") ⟨.absent, []⟩).world.disk, []⟩).w.status = some 409 ∧
    (generateUserTokenHandler ⟨"s3cret", .ok (fun _ => 255), none⟩ ResponseWriter.fresh
      (mkRequest "s3cret" "u1" "g2" "")
      ⟨(generateUserTokenHandler ⟨"s3cret", .ok (fun i => 17 * i), none⟩ ResponseWriter.fresh
        (mkRequest "s3cret" "u1" "g1" "") ⟨.absent, []⟩).world.disk,
        []⟩).world.disk.records "u1" =
      some ⟨(generateToken (Except.ok (fun i => 17 * i))).1, coerceUTF8 "g1"⟩ :=
  have h := (second_issue_is_rejected ⟨"s3cret", .ok (fun _ => 255), none⟩
    (mkRequest "s3cret" "u1" "g2" "") (by decide) (by decide) (by decide)).2
    ⟨"s3cret", .ok (fun i => 17 * i), none⟩ (mkRequest "s3cret" "u1" "g1" "") .absent
    (fun i => 17 * i) (by decide) (by decide) (by decide) (by decide) (Or.inl rfl)
    (by decide) rfl rfl
  ⟨h.1, h.2.1, h.2.2.2⟩

/-! ## Lifecycle of a record -/

/-- The records of a file after an assignment under a well-formed key was written. -/
theorem records_after_set (disk : File) (k : GoString) (v : TokenData)
    (hk : utf8ValidString k = true) (V : GoString) :
    (File.content (.object (marshalMembers (disk.decoded.set k v)))).records V =
      if V = k then some (coerceData v) else disk.records V := by
  have hwf := wellFormed_decoded disk
  have hnd : ((disk.decoded.set k v).map Prod.fst).Nodup := by
    simp only [TokenMap.set, List.map_cons, List.nodup_cons]
    exact ⟨not_mem_keys_delete _ _, (wellFormed_delete _ _ hwf).1⟩
  have hkeys : ∀ e ∈ disk.decoded.set k v, utf8ValidString e.1 = true := by
    intro e he
    simp only [TokenMap.set, List.mem_cons] at he
    rcases he with rfl | he
    · exact hk
    · exact ((wellFormed_delete _ _ hwf).2 e he).1
  rw [records_object, get_decode_marshal_keys _ hnd hkeys, get_set]
  by_cases hV : V = k
  · simp [hV]
  · simp only [hV, if_false]
    exact coerceData_get _ hwf V

/-- The records of a file after a delete was written. -/
theorem records_after_delete (disk : File) (k V : GoString) :
    (File.content (.object (marshalMembers (disk.decoded.delete k)))).records V =
      if V = k then none else disk.records V := by
  rw [records_marshal _ (wellFormed_delete _ _ (wellFormed_decoded disk)), get_delete]
  rfl

/-- The effect of one request on a well-formed store, when no write fails after the file was
opened: the handler completes, and either the file is as before, or an issuance that
returned 200 wrote the map with the record of its user added, or a verify that returned 200
with the stored token wrote the map with the record of its user removed; after an error
status the file is as before. -/
theorem serve_effect (env : Env) (route : Route) (r : Request) (disk : File)
    (hdisk : disk = .absent ∨ ∃ m, disk = .content (.object m))
    (hwrite : env.writeErr ≠ some .afterOpen) :
    (serve env route r disk).completed = true ∧
    ((serve env route r disk).world.disk = disk ∨
      (route = .generateUserToken ∧ disk.records (r.query "user-discord-id") = none ∧
        (serve env route r disk).w.status = some 200 ∧
        (serve env route r disk).world.disk = .content (.object (marshalMembers
          (disk.decoded.set (r.query "user-discord-id")
            ⟨(generateToken env.rand).1, r.query "guild-discord-id"⟩)))) ∨
      (route = .verify ∧
        (∃ rec, disk.records (r.query "user-discord-id") = some rec ∧
          rec.Token = r.query "token") ∧
        (serve env route r disk).w.status = some 200 ∧
        (serve env route r disk).world.disk = .content (.object (marshalMembers
          (disk.decoded.delete (r.query "user-discord-id")))))) ∧
    ((serve env route r disk).w.status ∈ [some 400, some 401, some 404, some 409, some 500] →
      (serve env route r disk).world.disk = disk) := by
  obtain ⟨sec, rand, werr⟩ := env
  cases route with
  | generateUserToken =>
    by_cases ha : r.header "X-Custom-Auth" = sec
    · by_cases hp : r.query "user-discord-id" = "" ∨ r.query "guild-discord-id" = ""
      · simp [serve, generateUserTokenHandler, ha, hp]
      · rcases hdisk with rfl | ⟨m, rfl⟩
        · rcases rand with e | stream <;> rcases werr with _ | _ | _ <;>
            simp [serve, generateUserTokenHandler, ha, hp, File.records] at hwrite ⊢
        · rcases hl : (decodeMembers m).get (r.query "user-discord-id") with _ | rec <;>
            rcases rand with e | stream <;> rcases werr with _ | _ | _ <;>
            simp [serve, generateUserTokenHandler, ha, hp, hl, File.records] at hwrite ⊢
    · simp [serve, generateUserTokenHandler, ha]
  | verify =>
    by_cases hp : r.query "user-discord-id" = "" ∨ r.query "token" = ""
    · simp [serve, verifyHandler, hp]
    · rcases hdisk with rfl | ⟨m, rfl⟩
      · simp [serve, verifyHandler, hp]
      · rcases hl : (decodeMembers m).get (r.query "user-discord-id") with _ | rec
        · simp [serve, verifyHandler, hp, hl]
        · by_cases ht : rec.Token = r.query "token"
          · rcases werr with _ | _ | _ <;>
              simp [serve, verifyHandler, hp, hl, ht, File.records] at hwrite ⊢
          · simp [serve, verifyHandler, hp, hl, ht]

/-- Every content written on a well-formed store, for an issuance with a well-formed user id,
is a JSON object whose members have pairwise distinct keys. -/
theorem written_keys_distinct (env : Env) (route : Route) (r : Request) (disk : File)
    (hdisk : disk = .absent ∨ ∃ m, disk = .content (.object m))
    (hvalid : route = .generateUserToken →
      utf8ValidString (r.query "user-discord-id") = true)
    (data : FileContent) (h : Event.writeFile data ∈ (serve env route r disk).world.log) :
    ∃ members, data = .object members ∧ (members.map Prod.fst).Nodup := by
  have hwf := wellFormed_decoded disk
  have hset : ∀ v, utf8ValidString (r.query "user-discord-id") = true →
      ((marshalMembers (disk.decoded.set (r.query "user-discord-id") v)).map
        Prod.fst).Nodup := by
    intro v hk
    apply nodup_keys_marshalMembers_keys
    · simp only [TokenMap.set, List.map_cons, List.nodup_cons]
      exact ⟨not_mem_keys_delete _ _, (wellFormed_delete _ _ hwf).1⟩
    · intro e he
      simp only [TokenMap.set, List.mem_cons] at he
      rcases he with rfl | he
      · exact hk
      · exact ((wellFormed_delete _ _ hwf).2 e he).1
  have hdel : ((marshalMembers (disk.decoded.delete (r.query "user-discord-id"))).map
      Prod.fst).Nodup :=
    nodup_keys_marshalMembers _ (wellFormed_delete _ _ hwf)
  obtain ⟨sec, rand, werr⟩ := env
  cases route with
  | generateUserToken =>
    have hk := hvalid rfl
    by_cases ha : r.header "X-Custom-Auth" = sec
    · by_cases hp : r.query "user-discord-id" = "" ∨ r.query "guild-discord-id" = ""
      · simp [serve, generateUserTokenHandler, ha, hp] at h
      · rcases hdisk with rfl | ⟨m, rfl⟩
        · rcases rand with e | stream <;> rcases werr with _ | _ | _ <;>
            simp [serve, generateUserTokenHandler, ha, hp] at h <;>
            exact ⟨_, h, hset _ hk⟩
        · rcases hl : (decodeMembers m).get (r.query "user-discord-id") with _ | rec <;>
            rcases rand with e | stream <;> rcases werr with _ | _ | _ <;>
            simp [serve, generateUserTokenHandler, ha, hp, hl] at h <;>
            exact ⟨_, h, hset _ hk⟩
    · simp [serve, generateUserTokenHandler, ha] at h
  | verify =>
    by_cases hp : r.query "user-discord-id" = "" ∨ r.query "token" = ""
    · simp [serve, verifyHandler, hp] at h
    · rcases hdisk with rfl | ⟨m, rfl⟩
      · simp [serve, verifyHandler, hp] at h
      · rcases hl : (decodeMembers m).get (r.query "user-discord-id") with _ | rec
        · simp [serve, verifyHandler, hp, hl] at h
        · by_cases ht : rec.Token = r.query "token"
          · rcases werr with _ | _ | _ <;>
              simp [serve, verifyHandler, hp, hl, ht] at h <;> exact ⟨_, h, hdel⟩
          · simp [serve, verifyHandler, hp, hl, ht] at h

/-- C8, as stated, fails in three places.  A write that fails after the file was opened: an
issuance for u3 answered 500 leaves the file cut off, so u2 loses its record without any
verify.  A user id that is not well-formed UTF-8: the issuance for 0xff creates a record for
the user U+FFFD, who made no request; and on a store where U+FFFD holds a record, the
issuance for 0xff answered 200 replaces that record. -/
theorem record_lifecycle_counterexample :
    ((File.content (.object ((TokenMap.empty.set "u1" ⟨"abc", "g1"⟩).set "u2"
        ⟨"def", "g2"⟩))).records "u2" = some ⟨"def", "g2"⟩ ∧
      (serve ⟨"s3cret", .ok (fun i => 17 * i), some .afterOpen⟩ .generateUserToken
        (mkRequest "s3cret" "u3" "g3" "")
        (.content (.object ((TokenMap.empty.set "u1" ⟨"abc", "g1"⟩).set "u2"
          ⟨"def", "g2"⟩)))).w.status = some 500 ∧
      (serve ⟨"s3cret", .ok (fun i => 17 * i), some .afterOpen⟩ .generateUserToken
        (mkRequest "s3cret" "u3" "g3" "")
        (.content (.object ((TokenMap.empty.set "u1" ⟨"abc", "g1"⟩).set "u2"
          ⟨"def", "g2"⟩)))).world.disk.records "u2" = none ∧
      (serve ⟨"s3cret", .ok (fun i => 17 * i), some .afterOpen⟩ .generateUserToken
        (mkRequest "s3cret" "u3" "g3" "")
        (.content (.object ((TokenMap.empty.set "u1" ⟨"abc", "g1"⟩).set "u2"
          ⟨"def", "g2"⟩)))).world.disk ≠
        .content (.object ((TokenMap.empty.set "u1" ⟨"abc", "g1"⟩).set "u2"
          ⟨"def", "g2"⟩))) ∧
    (File.absent.records [0xEF, 0xBF, 0xBD] = none ∧
      (serve ⟨"s3cret", .ok (fun i => 17 * i), none⟩ .generateUserToken
        (mkRequest "s3cret" [0xff] "g1" "") .absent).world.disk.records [0xEF, 0xBF, 0xBD] =
        some ⟨"00112233445566778899aabbc", "g1"⟩ ∧
      (mkRequest "s3cret" [0xff] "g1" "").query "user-discord-id" ≠ [0xEF, 0xBF, 0xBD]) ∧
    ((File.content (.object (TokenMap.empty.set [0xEF, 0xBF, 0xBD]
        ⟨"abc", "g0"⟩))).records [0xEF, 0xBF, 0xBD] = some ⟨"abc", "g0"⟩ ∧
      (serve ⟨"s3cret", .ok (fun i => 17 * i), none⟩ .generateUserToken
        (mkRequest "s3cret" [0xff] "g1" "")
        (.content (.object (TokenMap.empty.set [0xEF, 0xBF, 0xBD]
          ⟨"abc", "g0"⟩)))).w.status = some 200 ∧
      (serve ⟨"s3cret", .ok (fun i => 17 * i), none⟩ .generateUserToken
        (mkRequest "s3cret" [0xff] "g1" "")
        (.content (.object (TokenMap.empty.set [0xEF, 0xBF, 0xBD]
          ⟨"abc", "g0"⟩)))).world.disk.records [0xEF, 0xBF, 0xBD] =
        some ⟨"00112233445566778899aabbc", "g1"⟩) := by
  decide

/-- C8, amended by "no write fails after the file was opened" and "an issuance carries a
well-formed UTF-8 user id": one request served on an absent file or a JSON object runs to
completion, and for every user V: (a) a record of V appears only through an issuance for V
that returned 200; (b) a record of V disappears only through a verify for V with the stored
token that returned 200; (c) a record of V present before and after is the same record;
(d) a request answered 400, 401, 404, 409 or 500 leaves the file as it was; and every content
written is a JSON object whose keys are pairwise distinct, one record per user. -/
theorem record_lifecycle (env : Env) (route : Route) (r : Request) (disk : File) (V : GoString)
    (hdisk : disk = .absent ∨ ∃ m, disk = .content (.object m))
    (hwrite : env.writeErr ≠ some .afterOpen)
    (hvalid : route = .generateUserToken →
      utf8ValidString (r.query "user-discord-id") = true) :
    (serve env route r disk).completed = true ∧
    (disk.records V = none →
      ∀ rec, (serve env route r disk).world.disk.records V = some rec →
        route = .generateUserToken ∧ r.query "user-discord-id" = V ∧
        (serve env route r disk).w.status = some 200) ∧
    (∀ rec, disk.records V = some rec →
      (serve env route r disk).world.disk.records V = none →
        route = .verify ∧ r.query "user-discord-id" = V ∧ r.query "token" = rec.Token ∧
        (serve env route r disk).w.status = some 200) ∧
    (∀ a b, disk.records V = some a →
      (serve env route r disk).world.disk.records V = some b → a = b) ∧
    ((serve env route r disk).w.status ∈ [some 400, some 401, some 404, some 409, some 500] →
      (serve env route r disk).world.disk = disk) ∧
    (∀ data, Event.writeFile data ∈ (serve env route r disk).world.log →
      ∃ members, data = .object members ∧ (members.map Prod.fst).Nodup) := by
  obtain ⟨hc, heff, herr⟩ := serve_effect env route r disk hdisk hwrite
  refine ⟨hc, ?_, ?_, ?_, herr, written_keys_distinct env route r disk hdisk hvalid⟩
  · intro hnone rec hafter
    rcases heff with h | ⟨hr, _, hst, hd⟩ | ⟨_, _, _, hd⟩
    · rw [h, hnone] at hafter
      cases hafter
    · refine ⟨hr, ?_, hst⟩
      by_contra hne
      have hne2 : ¬ V = r.query "user-discord-id" := fun h => hne h.symm
      rw [hd, records_after_set _ _ _ (hvalid hr)] at hafter
      simp [hne2, hnone] at hafter
    · rw [hd, records_after_delete] at hafter
      by_cases hV : V = r.query "user-discord-id" <;> simp [hV, hnone] at hafter
  · intro rec hbefore hafter
    rcases heff with h | ⟨hr, hno, _, hd⟩ | ⟨hr, ⟨rec2, hrec2, htok⟩, hst, hd⟩
    · rw [h, hbefore] at hafter
      cases hafter
    · rw [hd, records_after_set _ _ _ (hvalid hr)] at hafter
      by_cases hV : V = r.query "user-discord-id" <;> simp [hV, hbefore] at hafter
    · by_cases hV : V = r.query "user-discord-id"
      · rw [← hV, hbefore] at hrec2
        cases hrec2
        exact ⟨hr, hV.symm, htok.symm, hst⟩
      · rw [hd, records_after_delete] at hafter
        simp [hV, hbefore] at hafter
  · intro a b hbefore hafter
    rcases heff with h | ⟨hr, hno, _, hd⟩ | ⟨_, _, _, hd⟩
    · rw [h, hbefore] at hafter
      exact Option.some.inj hafter
    · rw [hd, records_after_set _ _ _ (hvalid hr)] at hafter
      by_cases hV : V = r.query "user-discord-id"
      · rw [← hV, hbefore] at hno
        cases hno
      · simp [hV, hbefore] at hafter
        exact hafter
    · rw [hd, records_after_delete] at hafter
      by_cases hV : V = r.query "user-discord-id" <;> simp [hV, hbefore] at hafter
      exact hafter

/-- C8 amended, at a concrete store: u1 holds abc, u2 holds def, and u1 verifies with abc; u2
keeps its record and u1 loses it through a verify that returned 200. -/
theorem record_lifecycle_witness :
    (serve ⟨"s3cret", .ok (fun i => 17 * i), none⟩ .verify (mkRequest "" "u1" "" "abc")
      (.content (.object ((TokenMap.empty.set "u1" ⟨"abc", "g1"⟩).set "u2" ⟨"def", "g2"⟩)))
      ).world.disk.records "u1" = none ∧
    (Route.verify = Route.verify ∧ (mkRequest "" "u1" "" "abc").query "user-discord-id" = "u1" ∧
      (mkRequest "" "u1" "" "abc").query "token" = (⟨"abc", "g1"⟩ : TokenData).Token ∧
      (serve ⟨"s3cret", .ok (fun i => 17 * i), none⟩ .verify (mkRequest "" "u1" "" "abc")
        (.content (.object ((TokenMap.empty.set "u1" ⟨"abc", "g1"⟩).set "u2" ⟨"def", "g2"⟩)))
        ).w.status = some 200) :=
  ⟨by decide,
   (record_lifecycle ⟨"s3cret", .ok (fun i => 17 * i), none⟩ .verify (mkRequest "" "u1" "" "abc")
      (.content (.object ((TokenMap.empty.set "u1" ⟨"abc", "g1"⟩).set "u2" ⟨"def", "g2"⟩))) "u1"
      (Or.inr ⟨_, rfl⟩) (by decide) (by decide)).2.2.1 ⟨"abc", "g1"⟩ (by decide) (by decide)⟩

/-! ## A store that cannot be loaded -/

/-- C9: a verify with non-empty parameters on an absent or unparsable file returns 500
without writing the file.  An authorized issuance with non-empty parameters on an unparsable
file returns with status 500, without writing the file and without a token in the response,
whatever the failed parse left in the map.  On an absent file the same issuance gives the same
response through the same external calls as on a file holding the empty object, and the two
files end equal, or each as it started when nothing was stored. -/
theorem load_failure_is_500 (env : Env) (r : Request) :
    (r.query "user-discord-id" ≠ "" → r.query "token" ≠ "" →
      ∀ disk, (disk = .absent ∨ ∃ left, disk = .content (.malformed left)) →
        (verifyHandler env ResponseWriter.fresh r ⟨disk, []⟩).completed = true ∧
        (verifyHandler env ResponseWriter.fresh r ⟨disk, []⟩).w.status = some 500 ∧
        wroteFile (verifyHandler env ResponseWriter.fresh r ⟨disk, []⟩).world.log = false ∧
        (verifyHandler env ResponseWriter.fresh r ⟨disk, []⟩).world.disk = disk) ∧
    (r.header "X-Custom-Auth" = env.SHARED_SECRET →
      r.query "user-discord-id" ≠ "" → r.query "guild-discord-id" ≠ "" →
      (∀ left : GoMap,
        (generateUserTokenHandler env ResponseWriter.fresh r
          ⟨.content (.malformed left), []⟩).completed = true ∧
        (generateUserTokenHandler env ResponseWriter.fresh r
          ⟨.content (.malformed left), []⟩).w.status = some 500 ∧
        wroteFile (generateUserTokenHandler env ResponseWriter.fresh r
          ⟨.content (.malformed left), []⟩).world.log = false ∧
        carriesToken (generateUserTokenHandler env ResponseWriter.fresh r
          ⟨.content (.malformed left), []⟩).w.body = false ∧
        (generateUserTokenHandler env ResponseWriter.fresh r
          ⟨.content (.malformed left), []⟩).world.disk = .content (.malformed left)) ∧
      (generateUserTokenHandler env ResponseWriter.fresh r ⟨.absent, []⟩).completed = true ∧
      (generateUserTokenHandler env ResponseWriter.fresh r ⟨.absent, []⟩).w =
        (generateUserTokenHandler env ResponseWriter.fresh r
          ⟨.content emptyObject, []⟩).w ∧
      (generateUserTokenHandler env ResponseWriter.fresh r ⟨.absent, []⟩).world.log =
        (generateUserTokenHandler env ResponseWriter.fresh r
          ⟨.content emptyObject, []⟩).world.log ∧
      ((generateUserTokenHandler env ResponseWriter.fresh r ⟨.absent, []⟩).world.disk =
          (generateUserTokenHandler env ResponseWriter.fresh r
            ⟨.content emptyObject, []⟩).world.disk ∨
        ((generateUserTokenHandler env ResponseWriter.fresh r ⟨.absent, []⟩).world.disk =
            .absent ∧
          (generateUserTokenHandler env ResponseWriter.fresh r
            ⟨.content emptyObject, []⟩).world.disk = .content emptyObject))) := by
  obtain ⟨sec, rand, werr⟩ := env
  refine ⟨fun hU hT disk hdisk => ?_, fun ha hU hG => ⟨fun left => ?_, ?_⟩⟩
  · rcases hdisk with rfl | ⟨left, rfl⟩ <;> simp [verifyHandler, hU, hT, wroteFile]
  · simp only at ha
    rcases left with _ | m
    · rcases rand with e | stream <;>
        simp [generateUserTokenHandler, ha, hU, hG, wroteFile, carriesToken]
    · rcases hl : TokenMap.get m (r.query "user-discord-id") with _ | rec <;>
        rcases rand with e | stream <;>
        simp [generateUserTokenHandler, ha, hU, hG, hl, wroteFile, carriesToken]
  · simp only at ha
    rcases rand with e | stream <;> rcases werr with _ | _ | _ <;>
      simp [generateUserTokenHandler, ha, hU, hG]

/-- C9 at concrete requests: a verify on an absent file, and an authorized issuance on a file
whose failed parse left a record for the requesting user in the map. -/
theorem load_failure_is_500_witness :
    (verifyHandler ⟨"s3cret", .ok (fun i => 17 * i), none⟩ ResponseWriter.fresh
      (mkRequest "" "u1" "" "abc") ⟨.absent, []⟩).w.status = some 500 ∧
    (generateUserTokenHandler ⟨"s3cret", .ok (fun i => 17 * i), none⟩ ResponseWriter.fresh
      (mkRequest "s3cret" "u1" "g1" "")
      ⟨.content (.malformed (.alloc (TokenMap.empty.set "u1" ⟨"abc", "g1"⟩))), []⟩).w.status
      = some 500 :=
  ⟨((load_failure_is_500 ⟨"s3cret", .ok (fun i => 17 * i), none⟩
      (mkRequest "" "u1" "" "abc")).1 (by decide) (by decide) .absent (Or.inl rfl)).2.1,
   (((load_failure_is_500 ⟨"s3cret", .ok (fun i => 17 * i), none⟩
      (mkRequest "s3cret" "u1" "g1" "")).2 (by decide) (by decide) (by decide)).1
      (.alloc (TokenMap.empty.set "u1" ⟨"abc", "g1"⟩))).2.1⟩

/-! ## The nil map -/

/-- C10, the failing input: on a file holding the JSON value `null`, which decodes without
error and leaves the map nil, an authorized issuance for u1 reaches the assignment with the
nil map and panics; the handler has written no response and no file. -/
theorem issue_on_null_file_panics :
    (jsonUnmarshal .null).2 = none ∧
    (generateUserTokenHandler ⟨"s3cret", .ok (fun i => 17 * i), none⟩ ResponseWriter.fresh
      (mkRequest "s3cret" "u1" "g1" "") ⟨.content .null, []⟩).completed = false ∧
    (generateUserTokenHandler ⟨"s3cret", .ok (fun i => 17 * i), none⟩ ResponseWriter.fresh
      (mkRequest "s3cret" "u1" "g1" "") ⟨.content .null, []⟩).w = ResponseWriter.fresh ∧
    wroteFile (generateUserTokenHandler ⟨"s3cret", .ok (fun i => 17 * i), none⟩
      ResponseWriter.fresh (mkRequest "s3cret" "u1" "g1" "")
      ⟨.content .null, []⟩).world.log = false := by
  decide

/-- Every content either handler writes is a JSON object, never `null`, whatever the file
held before. -/
theorem written_content_is_object (env : Env) (route : Route) (r : Request) (disk : File)
    (data : FileContent) (h : Event.writeFile data ∈ (serve env route r disk).world.log) :
    ∃ m, data = .object m := by
  obtain ⟨sec, rand, werr⟩ := env
  cases route with
  | generateUserToken =>
    by_cases ha : r.header "X-Custom-Auth" = sec
    · by_cases hp : r.query "user-discord-id" = "" ∨ r.query "guild-discord-id" = ""
      · simp [serve, generateUserTokenHandler, ha, hp] at h
      · rcases disk with _ | _ | c | _ | left | m
        · rcases rand with e | stream <;> rcases werr with _ | _ | _ <;>
            simp [serve, generateUserTokenHandler, ha, hp] at h <;> exact ⟨_, h⟩
        · rcases rand with e | stream <;> rcases werr with _ | _ | _ <;>
            simp [serve, generateUserTokenHandler, ha, hp] at h
        · rcases hl : (decodeMembers c).get (r.query "user-discord-id") with _ | rec <;>
            rcases rand with e | stream <;> rcases werr with _ | _ | _ <;>
            simp [serve, generateUserTokenHandler, ha, hp, hl] at h <;> exact ⟨_, h⟩
        · rcases rand with e | stream <;> rcases werr with _ | _ | _ <;>
            simp [serve, generateUserTokenHandler, ha, hp] at h
        · rcases rand with e | stream <;> rcases werr with _ | _ | _ <;>
            simp [serve, generateUserTokenHandler, ha, hp] at h
        · rcases hl : TokenMap.get m (r.query "user-discord-id") with _ | rec <;>
            rcases rand with e | stream <;> rcases werr with _ | _ | _ <;>
            simp [serve, generateUserTokenHandler, ha, hp, hl] at h
    · simp [serve, generateUserTokenHandler, ha] at h
  | verify =>
    by_cases hp : r.query "user-discord-id" = "" ∨ r.query "token" = ""
    · simp [serve, verifyHandler, hp] at h
    · rcases disk with _ | _ | c | _ | left
      · simp [serve, verifyHandler, hp] at h
      · simp [serve, verifyHandler, hp] at h
      · rcases hl : (decodeMembers c).get (r.query "user-discord-id") with _ | rec
        · simp [serve, verifyHandler, hp, hl] at h
        · by_cases ht : rec.Token = r.query "token"
          · rcases werr with _ | _ | _ <;>
              simp [serve, verifyHandler, hp, hl, ht] at h <;> exact ⟨_, h⟩
          · simp [serve, verifyHandler, hp, hl, ht] at h
      · simp [serve, verifyHandler, hp] at h
      · simp [serve, verifyHandler, hp] at h

end UtkAuth
